import Mathlib

/-!
# Agent panel (`src/btop_agent.cpp`, `src/btop_agent.hpp`)

A shallow embedding of the agent-panel module: the log-line parser, the
declared-session / orphan-process reconciliation of `collect`, the status
classifier, the panel state machine, the multiplexer commands of the session
actions and the renderer `draw`, followed by the properties proved about them.

Conventions of the embedding:
* a `std::string` is a `List Char` (one `Char` per byte), `Str` for short;
* `string::npos` is `none`, a found position is `some i`;
* `int` values are `Int`, reduced to 32 bits by `wrap_int` in `handle_nav_key`;
  `uint64_t` values are `Nat` reduced modulo `2^64`;
* module-level `static` variables are fields of an explicit state record;
* `std::system` is a function from the commands issued so far and the command
  run to an exit status, and the commands issued are kept in a list;
* the frame `draw` returns is the list of its pieces, the strings of the host
  primitives being kept as symbols; a read of a vector outside its bounds has
  no result (`none`).
-/

namespace Agent

/-- A `std::string`, as the list of its bytes. -/
abbrev Str := List Char

/-! ## `std::string` primitives used by the module -/

/-- Scan for `pat` in the remaining text `s`, whose first byte sits at index `i`
of the whole string: the lowest matching position, if any. -/
def find_at (pat : Str) : Str → Nat → Option Nat
  | [], i => if pat.isPrefixOf [] then some i else none
  | c :: cs, i => if pat.isPrefixOf (c :: cs) then some i else find_at pat cs (i + 1)

/-- The call `s.find(pat, pos)` of `std::string`: lowest position `≥ pos` at which
`pat` occurs, `none` for `npos`. -/
def find (s pat : Str) (pos : Nat) : Option Nat :=
  if pos > s.length then none else find_at pat (s.drop pos) pos

/-- Scan for the byte `c`; the head of the remaining text has index `i`. -/
def find_char_at (c : Char) : Str → Nat → Option Nat
  | [], _ => none
  | d :: ds, i => if d = c then some i else find_char_at c ds (i + 1)

/-- The call `s.find(c)` of `std::string` for a single byte. -/
def find_char (s : Str) (c : Char) : Option Nat := find_char_at c s 0

/-- The call `s.substr(pos, n)`, for `pos ≤ s.size()`. -/
def substr (s : Str) (pos n : Nat) : Str := (s.drop pos).take n

/-- The call `s.substr(pos)`, for `pos ≤ s.size()`. -/
def substr_from (s : Str) (pos : Nat) : Str := s.drop pos

/-- The field separator of the session log. -/
def sep : Str := [' ', ':', ':', ' ']

/-! ## Log-line parsing (`collect`, lines 214-223) -/

/-- The parsing step of `collect` on one line of the log: `none` when the line
is skipped (`continue`), otherwise `(timestamp, session_id, command)`. -/
def parse_line (line : Str) : Option (Str × Str × Str) :=
  match find line sep 0 with
  | none => none
  | some first =>
    match find line sep (first + 4) with
    | none => none
    | some second =>
      some (substr line 0 first,
            substr line (first + 4) (second - first - 4),
            substr_from line (second + 4))

/-! ## Records (`btop_agent.hpp`, `TmuxInfo`) -/

/-- One agent session, `struct SessionInfo` with its default member values. -/
structure SessionInfo where
  session_id : Str
  agent_type : Str
  time_str : Str
  command : Str
  pid : Int := 0
  running : Bool := false
  waiting : Bool := false
deriving DecidableEq, Repr

/-- A live multiplexer session, `struct TmuxInfo`. -/
structure TmuxInfo where
  pid : Int := 0
  last_output : Str := []
deriving DecidableEq, Repr

/-- A numeric entry of the process table as `scan_processes` reads it: the pid
its directory name denotes, and the contents of its `cmdline` and `comm`. -/
structure ProcEntry where
  pid : Nat
  cmdline : Str
  comm : Str
deriving DecidableEq, Repr

/-! ## Small helpers: `match_agent_type`, `format_time`, `extract_agent_type` -/

/-- The lower-casing `std::transform` of `match_agent_type` (`std::tolower` on
each byte). -/
def to_lower (text : Str) : Str := text.map Char.toLower

/-- The function `match_agent_type`: `some t` when it returns `true` having set
`agent_type` to `t`, `none` when it returns `false`. -/
def match_agent_type (text : Str) : Option Str :=
  let lower := to_lower text
  if (find lower "claude".toList 0).isSome then some "claude".toList
  else if (find lower "codex".toList 0).isSome then some "codex".toList
  else if (find lower "gemini".toList 0).isSome then some "gemini".toList
  else none

/-- The function `format_time`. -/
def format_time (timestamp : Str) : Str :=
  match (find_char timestamp 'T').filter (fun t_pos => decide (timestamp.length ≥ t_pos + 9)) with
  | some t_pos => substr timestamp (t_pos + 1) 8
  | none =>
    if timestamp.length ≥ 8 then substr_from timestamp (timestamp.length - 8)
    else timestamp

/-- The literal `"agent-"` that `extract_agent_type` requires in front. -/
def agent_tag : Str := "agent-".toList

/-- The function `extract_agent_type`. -/
def extract_agent_type (session_id : Str) : Str :=
  if !(agent_tag.isPrefixOf session_id) then "unknown".toList
  else
    let rest := substr_from session_id agent_tag.length
    match find_char rest '-' with
    | none => rest
    | some dash => substr rest 0 dash

/-! ## The status classifier (`is_waiting_for_input`)

The eight `std::regex` patterns use literals, bracket sets, `\s`, `*`,
concatenation and `$`.  They are kept as syntax trees and searched with a
derivative matcher; `$` holds at the end of the input (ECMAScript grammar, no
multiline flag). -/

/-- Regular expressions of the fragment the patterns use.  `nothing`, `eps` and
`alt` only arise as derivatives. -/
inductive Regex where
  | nothing : Regex
  | eps : Regex
  | chr (c : Char) : Regex
  | cls (cs : List Char) : Regex
  | space : Regex
  | eoi : Regex
  | seq (a b : Regex) : Regex
  | alt (a b : Regex) : Regex
  | star (a : Regex) : Regex
deriving Repr

/-- The class `\s`: the bytes for which `isspace` holds in the C locale. -/
def is_space (c : Char) : Bool :=
  c = ' ' || c = '\t' || c = '\n' || c = Char.ofNat 11 || c = Char.ofNat 12 || c = '\r'

/-- Whether `r` matches the empty word at the current position; `at_end` tells
whether that position is the end of the input. -/
def Regex.nullable (at_end : Bool) : Regex → Bool
  | .nothing => false
  | .eps => true
  | .chr _ => false
  | .cls _ => false
  | .space => false
  | .eoi => at_end
  | .seq a b => a.nullable at_end && b.nullable at_end
  | .alt a b => a.nullable at_end || b.nullable at_end
  | .star _ => true

/-- The derivative of `r` by the byte `c`: what remains to be matched once `c`
has been consumed. -/
def Regex.deriv (c : Char) : Regex → Regex
  | .nothing => .nothing
  | .eps => .nothing
  | .chr d => if c = d then .eps else .nothing
  | .cls cs => if c ∈ cs then .eps else .nothing
  | .space => if is_space c then .eps else .nothing
  | .eoi => .nothing
  | .seq a b =>
    if a.nullable false then .alt (.seq (a.deriv c) b) (b.deriv c)
    else .seq (a.deriv c) b
  | .alt a b => .alt (a.deriv c) (b.deriv c)
  | .star a => .seq (a.deriv c) (.star a)

/-- Whether `r` matches some initial segment of `s`, where `s` runs to the end of
the input. -/
def match_here : Regex → Str → Bool
  | r, [] => r.nullable true
  | r, c :: cs => r.nullable false || match_here (r.deriv c) cs

/-- The call `std::regex_search(s, r)`: `r` matches somewhere in `s`. -/
def regex_search : Str → Regex → Bool
  | [], r => match_here r []
  | c :: cs, r => match_here r (c :: cs) || regex_search cs r

/-- `Matches r u rest`: the regular expression `r` matches the word `u` at a
place where the input goes on with `rest`; `$` matches the empty word where
nothing is left of the input. -/
inductive Regex.Matches : Regex → Str → Str → Prop
  | eps (rest : Str) : Regex.Matches .eps [] rest
  | chr (c : Char) (rest : Str) : Regex.Matches (.chr c) [c] rest
  | cls (c : Char) (cs : List Char) (rest : Str) (h : c ∈ cs) : Regex.Matches (.cls cs) [c] rest
  | space (c : Char) (rest : Str) (h : is_space c = true) : Regex.Matches .space [c] rest
  | eoi : Regex.Matches .eoi [] []
  | seq (a b : Regex) (u v rest : Str) (ha : Regex.Matches a u (v ++ rest))
      (hb : Regex.Matches b v rest) : Regex.Matches (.seq a b) (u ++ v) rest
  | alt_left (a b : Regex) (u rest : Str) (ha : Regex.Matches a u rest) :
      Regex.Matches (.alt a b) u rest
  | alt_right (a b : Regex) (u rest : Str) (hb : Regex.Matches b u rest) :
      Regex.Matches (.alt a b) u rest
  | star_nil (a : Regex) (rest : Str) : Regex.Matches (.star a) [] rest
  | star_cons (a : Regex) (u v rest : Str) (ha : Regex.Matches a u (v ++ rest))
      (hs : Regex.Matches (.star a) v rest) : Regex.Matches (.star a) (u ++ v) rest

/-- A literal word as a regular expression. -/
def Regex.word : Str → Regex
  | [] => .eps
  | [c] => .chr c
  | c :: cs => .seq (.chr c) (Regex.word cs)

/-- The `patterns` table of `is_waiting_for_input`, in source order. -/
def patterns : List Regex :=
  [ -- \?\s*$
    .seq (.chr '?') (.seq (.star .space) .eoi),
    -- [Yy]/[Nn]\s*$
    .seq (.cls ['Y', 'y']) (.seq (.chr '/') (.seq (.cls ['N', 'n']) (.seq (.star .space) .eoi))),
    -- [Pp]roceed\s*\?
    .seq (.cls ['P', 'p']) (.seq (Regex.word "roceed".toList) (.seq (.star .space) (.chr '?'))),
    -- [Cc]ontinue\s*\?
    .seq (.cls ['C', 'c']) (.seq (Regex.word "ontinue".toList) (.seq (.star .space) (.chr '?'))),
    -- Enter\s
    .seq (Regex.word "Enter".toList) .space,
    -- Input\s*:
    .seq (Regex.word "Input".toList) (.seq (.star .space) (.chr ':')),
    -- >\s*$
    .seq (.chr '>') (.seq (.star .space) .eoi),
    -- \$\s*$
    .seq (.chr '$') (.seq (.star .space) .eoi) ]

/-- The function `is_waiting_for_input`: true as soon as one pattern is found. -/
def is_waiting_for_input (output : Str) : Bool :=
  patterns.any (fun pattern => regex_search output pattern)

/-! ## Discovery (`scan_processes`, `collect`) -/

/-- The outside world one discovery pass reads: the content of the session log
(`none` when the file cannot be opened), the map `tmux_sessions()` returns, and
the numeric entries of the process table in iteration order. -/
structure World where
  log : Option Str
  tmux_map : Str → Option TmuxInfo
  procs : List ProcEntry

/-- The lines `std::getline` extracts from the rest of a stream, `cur` being the
part of the current line read so far. -/
def getlines_from : Str → Str → List Str
  | [], cur => if cur = [] then [] else [cur]
  | c :: cs, cur => if c = '\n' then cur :: getlines_from cs [] else getlines_from cs (cur ++ [c])

/-- All lines of a file, as the `while (std::getline(file, line))` loop sees them. -/
def getlines (content : Str) : List Str := getlines_from content []

/-- The largest value of `int`; `std::stoi` throws beyond it. -/
def INT_MAX : Nat := 2147483647

/-- The session id `fmt::format("proc-{}", pid)` of an orphan process. -/
def proc_session_id (pid : Nat) : Str := "proc-".toList ++ Nat.toDigits 10 pid

/-- The body of the loop of `scan_processes` for one numeric entry: `none` when
the entry is skipped, otherwise the record pushed to `results`. -/
def scan_entry (known_pids : List Int) (entry : ProcEntry) : Option SessionInfo :=
  if entry.pid > INT_MAX then none
  else if (entry.pid : Int) ∈ known_pids then none
  else
    let cmdline := entry.cmdline.map (fun ch => if ch = Char.ofNat 0 then ' ' else ch)
    let comm := entry.comm
    if (find cmdline "btop-agent".toList 0).isSome then none
    else
      let matched :=
        match match_agent_type cmdline with
        | some t => some t
        | none => match_agent_type comm
      match matched with
      | none => none
      | some agent_type =>
        some { session_id := proc_session_id entry.pid,
               agent_type := agent_type,
               time_str := "live".toList,
               command := if cmdline.isEmpty then comm else cmdline,
               pid := (entry.pid : Int),
               running := true,
               waiting := false }

/-- The function `scan_processes` over the numeric entries of the process table. -/
def scan_processes (known_pids : List Int) (procs : List ProcEntry) : List SessionInfo :=
  procs.filterMap (scan_entry known_pids)

/-- The record one iteration of the log loop of `collect` pushes for `line`
(lines 225-239), `none` when the line is skipped. -/
def declared_record (tmux_map : Str → Option TmuxInfo) (line : Str) : Option SessionInfo :=
  match parse_line line with
  | none => none
  | some (timestamp, session_id, command) =>
    let info : SessionInfo :=
      { session_id := session_id,
        agent_type := extract_agent_type session_id,
        time_str := format_time timestamp,
        command := command }
    match tmux_map session_id with
    | some it =>
      some { info with running := true, pid := it.pid,
                       waiting := is_waiting_for_input it.last_output }
    | none => some info

/-- The `while (std::getline(file, line))` loop of `collect`, from a given value of
`sessions` and `known_pids`: the final value of both. -/
def declared_loop (tmux_map : Str → Option TmuxInfo) :
    List Str → List SessionInfo → List Int → List SessionInfo × List Int
  | [], sessions, known_pids => (sessions, known_pids)
  | line :: rest, sessions, known_pids =>
    match parse_line line with
    | none => declared_loop tmux_map rest sessions known_pids
    | some (timestamp, session_id, command) =>
      let info : SessionInfo :=
        { session_id := session_id,
          agent_type := extract_agent_type session_id,
          time_str := format_time timestamp,
          command := command }
      match tmux_map session_id with
      | some it =>
        let info := { info with running := true, pid := it.pid,
                                waiting := is_waiting_for_input it.last_output }
        declared_loop tmux_map rest (sessions ++ [info]) (info.pid :: known_pids)
      | none => declared_loop tmux_map rest (sessions ++ [info]) known_pids

/-- The truncation at the end of `collect`: `sessions.erase(begin, end - 25)` when
there are more than 25 records. -/
def truncate_sessions (sessions : List SessionInfo) : List SessionInfo :=
  if sessions.length > 25 then sessions.drop (sessions.length - 25) else sessions

/-- The function `collect`, from the value of its static `cached`.  The list it
returns is also the new value of `cached`. -/
def collect (cached : List SessionInfo) (no_update : Bool) (w : World) : List SessionInfo :=
  if no_update && !cached.isEmpty then cached
  else
    match w.log with
    | none => []
    | some content =>
      let (sessions, known_pids) := declared_loop w.tmux_map (getlines content) [] []
      let proc_sessions := scan_processes known_pids w.procs
      let sessions := sessions ++ proc_sessions
      truncate_sessions sessions

/-- The declared records of a discovery pass: `sessions` when the log loop ends. -/
def declared_sessions (w : World) (content : Str) : List SessionInfo :=
  (declared_loop w.tmux_map (getlines content) [] []).1

/-- The pids claimed by live declared sessions: `known_pids` when the log loop ends. -/
def claimed_pids (w : World) (content : Str) : List Int :=
  (declared_loop w.tmux_map (getlines content) [] []).2

/-- The orphan records of a discovery pass: what `scan_processes(known_pids)` returns. -/
def orphan_sessions (w : World) (content : Str) : List SessionInfo :=
  scan_processes (claimed_pids w content) w.procs

/-- The session ids the log declares, in file order, repetitions included. -/
def declared_ids (content : Str) : List Str :=
  ((getlines content).filterMap parse_line).map (fun fields => fields.2.1)

/-- The number a string of decimal digits denotes. -/
def digits_value (cs : Str) : Nat :=
  cs.foldl (fun acc c => 10 * acc + (c.toNat - 48)) 0

/-- The value of `cached`, which is also the list returned, after a series of
`collect` calls from program start (`cached` empty).  Each call is given by its
`no_update` flag and the world it runs in; the latest call comes first. -/
def collect_calls : List (Bool × World) → List SessionInfo
  | [] => []
  | call :: earlier => collect (collect_calls earlier) call.1 call.2

/-! ## Panel state (`register_click`, `handle_nav_key`) -/

/-- The module-level variables of the panel. -/
structure PanelState where
  box : Str := []
  x : Int := 0
  y : Int := 0
  width : Int := 0
  height : Int := 0
  shown : Bool := false
  redraw : Bool := true
  focused : Bool := false
  last_click_time : Nat := 0
  last_click_session : Str := []
  last_sessions : List SessionInfo := []
  selected_index : Int := 0
  scroll_offset : Int := 0
  last_visible_rows : Int := 0

/-- Index of the first record of `sessions` whose id is `session_id`, counted
from `i`; the search loop of `register_click`. -/
def first_index_of (session_id : Str) : List SessionInfo → Nat → Option Nat
  | [], _ => none
  | e :: es, i => if e.session_id = session_id then some i else first_index_of session_id es (i + 1)

/-- The function `register_click`, with `now` the value of `Tools::time_ms()`:
the new state and the returned `is_double`. -/
def register_click (st : PanelState) (now : Nat) (session_id : Str) : PanelState × Bool :=
  let delta := (now + 2 ^ 64 - st.last_click_time) % 2 ^ 64
  let is_double :=
    !st.last_click_session.isEmpty && decide (st.last_click_session = session_id)
      && decide (delta < 500)
  let st := { st with last_click_time := now, last_click_session := session_id, focused := true }
  let st :=
    match first_index_of session_id st.last_sessions 0 with
    | some i => { st with selected_index := (i : Int) }
    | none => st
  (st, is_double)

/-- The value a 32-bit `int` holds when an arithmetic result is `n`: `n` itself
inside the `int` range, and the two's complement wrap of `n` outside it, which
is what the compiled code computes where C++ leaves the overflow undefined. -/
def wrap_int (n : Int) : Int := (n + 2147483648) % 4294967296 - 2147483648

/-- The function `handle_nav_key`: the new state and the returned flag.  Every
`int` result, the cast `static_cast<int>(last_sessions.size())` included, is
reduced to 32 bits by `wrap_int`. -/
def handle_nav_key (st : PanelState) (key : Str) : PanelState × Bool :=
  if !st.focused || st.last_sessions.isEmpty || decide (st.last_visible_rows ≤ 0) then (st, false)
  else
    let size : Int := wrap_int st.last_sessions.length
    if key = "up".toList then
      ({ st with selected_index := if st.selected_index > 0 then wrap_int (st.selected_index - 1)
                                   else st.selected_index,
                 redraw := true }, true)
    else if key = "down".toList then
      ({ st with selected_index := if st.selected_index < wrap_int (size - 1)
                                   then wrap_int (st.selected_index + 1)
                                   else st.selected_index,
                 redraw := true }, true)
    else if key = "page_up".toList then
      ({ st with selected_index := max 0 (wrap_int (st.selected_index - st.last_visible_rows)),
                 redraw := true }, true)
    else if key = "page_down".toList then
      ({ st with selected_index := min (wrap_int (size - 1))
                                     (wrap_int (st.selected_index + st.last_visible_rows)),
                 redraw := true }, true)
    else if key = "home".toList then
      ({ st with selected_index := 0, redraw := true }, true)
    else if key = "end".toList then
      ({ st with selected_index := wrap_int (size - 1), redraw := true }, true)
    else (st, false)

/-- The state after a series of `handle_nav_key` calls, one per key. -/
def nav_keys (st : PanelState) : List Str → PanelState
  | [] => st
  | key :: rest => nav_keys (handle_nav_key st key).1 rest

/-! ## Column layout (`draw`, lines 399-439) -/

/-- The column widths `draw` settles on. -/
structure Columns where
  session_w : Int
  type_w : Int
  pid_w : Int
  status_w : Int
  time_w : Int
  cmd_w : Int
deriving DecidableEq, Repr

/-- The width computation of `draw` for a given `inner_width` (which `draw` has
made non-negative, so that `/` is the division of C++). -/
def column_widths (inner_width : Int) : Columns :=
  let session_w : Int := min 18 (max 10 (inner_width / 4))
  let type_w : Int := 6
  let pid_w : Int := 6
  let status_w : Int := 7
  let time_w : Int := 8
  let cmd_w : Int := inner_width - (session_w + type_w + pid_w + status_w + time_w + 4)
  let (pid_w, time_w, cmd_w) :=
    if cmd_w < 8 then ((0 : Int), (0 : Int), inner_width - (session_w + type_w + status_w + 2))
    else (pid_w, time_w, cmd_w)
  let (type_w, cmd_w) :=
    if cmd_w < 8 then ((0 : Int), inner_width - (session_w + status_w + 1))
    else (type_w, cmd_w)
  { session_w := session_w, type_w := type_w, pid_w := pid_w,
    status_w := status_w, time_w := time_w, cmd_w := cmd_w }

/-- The lambda `build_row` of `draw`, for the column widths `w` it captures.
`ljust s n` and `rjust s n` stand for `Tools::ljust(s, n, true)` and
`Tools::rjust(s, n, true)`, which live outside this module. -/
def build_row (ljust rjust : Str → Int → Str) (w : Columns) (inner_width : Int)
    (session type pid status time cmd : Str) : Str :=
  let row : Str := []
  let row := row ++ ljust session w.session_w
  let row := row ++ [' ']
  let row := if w.type_w > 0 then (row ++ ljust type w.type_w) ++ [' '] else row
  let row := if w.pid_w > 0 then (row ++ rjust pid w.pid_w) ++ [' '] else row
  let row := row ++ ljust status w.status_w
  let row := if w.time_w > 0 then (row ++ [' ']) ++ ljust time w.time_w else row
  let row := if w.cmd_w > 0 then (row ++ [' ']) ++ ljust cmd w.cmd_w else row
  ljust row inner_width

/-! ## Multiplexer commands (`shell_escape_single`, `attach_session`, 335-377) -/

/-- The single quote byte. -/
def squote : Char := Char.ofNat 39

/-- The double quote byte. -/
def dquote : Char := Char.ofNat 34

/-- The backslash byte. -/
def backslash : Char := Char.ofNat 92

/-- The five bytes `'"'"'` that `shell_escape_single` writes for a single quote. -/
def quote_escape : Str := [squote, dquote, squote, dquote, squote]

/-- The `for` loop of `shell_escape_single`: `out` after the bytes of `value`
have been appended to it. -/
def escape_loop : Str → Str → Str
  | [], out => out
  | c :: rest, out =>
    if c = squote then escape_loop rest (out ++ quote_escape)
    else escape_loop rest (out ++ [c])

/-- The function `shell_escape_single`. -/
def shell_escape_single (value : Str) : Str :=
  if value.isEmpty then [squote, squote]
  else
    let out : Str := [squote]
    let out := escape_loop value out
    out ++ [squote]

/-- The string `fmt::format("tmux has-session -t '{}' 2>/dev/null", session_id)`
built by `attach_session` and `resume_selected`. -/
def has_session_cmd (session_id : Str) : Str :=
  "tmux has-session -t '".toList ++ session_id ++ "' 2>/dev/null".toList

/-- The string `fmt::format("tmux attach -t '{}'", session_id)` of `attach_session`. -/
def attach_cmd (session_id : Str) : Str :=
  "tmux attach -t '".toList ++ session_id ++ "'".toList

/-- The string `fmt::format("tmux new-session -d -s '{}' -- bash -lc {}", session_id,
shell_escape_single(command))` of `resume_selected`. -/
def new_session_cmd (session_id command : Str) : Str :=
  "tmux new-session -d -s '".toList ++ session_id ++ "' -- bash -lc ".toList
    ++ shell_escape_single command

/-- The string `fmt::format("tmux kill-session -t '{}' 2>/dev/null", session_id)`
of `kill_selected`. -/
def kill_session_cmd (session_id : Str) : Str :=
  "tmux kill-session -t '".toList ++ session_id ++ "' 2>/dev/null".toList

/-! ### Shell quoting

The reading of a command line by a POSIX shell, as far as quoting goes (Shell
Command Language, 2.2 Quoting): blanks separate words; a backslash outside
quotes keeps the next byte, and removes a newline; between single quotes every
byte is kept; between double quotes every byte is kept except that a backslash
before one of `$`, a backquote, `"`, a backslash keeps that byte and a
backslash before a newline removes both; adjacent quoted and unquoted parts
make one word.  Expansions and operators are outside this reading. -/

/-- Where the reader stands: outside quotes, right after a backslash outside
quotes, between single quotes, between double quotes, right after a backslash
between double quotes. -/
inductive Quoting where
  | bare : Quoting
  | escaped : Quoting
  | single : Quoting
  | double : Quoting
  | double_escaped : Quoting
deriving DecidableEq, Repr

/-- The blanks that separate words. -/
def is_blank (c : Char) : Bool := c = ' ' || c = '\t' || c = '\n'

/-- The word begun so far, extended by the bytes `cs`. -/
def word_add (cur : Option Str) (cs : Str) : Option Str := some (cur.getD [] ++ cs)

/-- The word begun so far, if any, put in front of the words that follow. -/
def word_end (cur : Option Str) (rest : Option (List Str)) : Option (List Str) :=
  match cur with
  | none => rest
  | some w => rest.map (fun ws => w :: ws)

/-- The words of the rest of a command line, given where the reader stands and
the word begun so far (`none` between words); `none` when a quote is left
open. -/
def sh_read : Quoting → Option Str → Str → Option (List Str)
  | .bare, cur, [] => word_end cur (some [])
  | .escaped, cur, [] => word_end (word_add cur [backslash]) (some [])
  | .single, _, [] => none
  | .double, _, [] => none
  | .double_escaped, _, [] => none
  | .bare, cur, c :: cs =>
    if is_blank c then word_end cur (sh_read .bare none cs)
    else if c = squote then sh_read .single (word_add cur []) cs
    else if c = dquote then sh_read .double (word_add cur []) cs
    else if c = backslash then sh_read .escaped cur cs
    else sh_read .bare (word_add cur [c]) cs
  | .escaped, cur, c :: cs =>
    if c = '\n' then sh_read .bare cur cs
    else sh_read .bare (word_add cur [c]) cs
  | .single, cur, c :: cs =>
    if c = squote then sh_read .bare cur cs
    else sh_read .single (word_add cur [c]) cs
  | .double, cur, c :: cs =>
    if c = dquote then sh_read .bare cur cs
    else if c = backslash then sh_read .double_escaped cur cs
    else sh_read .double (word_add cur [c]) cs
  | .double_escaped, cur, c :: cs =>
    if c = '\n' then sh_read .double cur cs
    else if c = '$' || c = Char.ofNat 96 || c = dquote || c = backslash then
      sh_read .double (word_add cur [c]) cs
    else sh_read .double (word_add cur [backslash, c]) cs

/-- The words a POSIX shell reads from a command line. -/
def sh_words (cmd : Str) : Option (List Str) := sh_read .bare none cmd

/-! ## Session actions (`selected_session`, `toggle_focus`, 335-377) -/

/-- The external command runner `std::system`: the exit status of a command,
given the commands issued before it. -/
abbrev System := List Str → Str → Int

/-- The function `attach_session`: the commands issued so far, extended by the
ones it issues. -/
def attach_session (system : System) (issued : List Str) (session_id : Str) : List Str :=
  if !(agent_tag.isPrefixOf session_id) then issued
  else
    let check_cmd := has_session_cmd session_id
    let status := system issued check_cmd
    let issued := issued ++ [check_cmd]
    if status ≠ 0 then issued
    else issued ++ [attach_cmd session_id]

/-- The function `selected_session`: the state with the selection clamped, and
the selected record (`none` for `nullptr`). -/
def selected_session (st : PanelState) : PanelState × Option SessionInfo :=
  if st.last_sessions.isEmpty then (st, none)
  else
    let size : Int := st.last_sessions.length
    let st := if st.selected_index < 0 then { st with selected_index := 0 } else st
    let st := if st.selected_index ≥ size then { st with selected_index := size - 1 } else st
    (st, st.last_sessions[st.selected_index.toNat]?)

/-- The function `toggle_focus`. -/
def toggle_focus (st : PanelState) : PanelState :=
  { st with focused := !st.focused, redraw := true }

/-- The function `resume_selected`: the new state, the commands issued so far
extended by the ones it issues, and the returned flag. -/
def resume_selected (system : System) (st : PanelState) (issued : List Str) :
    PanelState × List Str × Bool :=
  match selected_session st with
  | (st, none) => (st, issued, false)
  | (st, some entry) =>
    if !(agent_tag.isPrefixOf entry.session_id) then (st, issued, false)
    else if entry.command.isEmpty then (st, issued, false)
    else
      let check_cmd := has_session_cmd entry.session_id
      let status := system issued check_cmd
      let issued := issued ++ [check_cmd]
      if status = 0 then (st, attach_session system issued entry.session_id, true)
      else
        let cmd := new_session_cmd entry.session_id entry.command
        let result := system issued cmd
        let issued := issued ++ [cmd]
        if result = 0 then (st, attach_session system issued entry.session_id, true)
        else (st, issued, false)

/-- The function `activate_selected`. -/
def activate_selected (system : System) (st : PanelState) (issued : List Str) :
    PanelState × List Str × Bool :=
  match selected_session st with
  | (st, none) => (st, issued, false)
  | (st, some entry) =>
    if entry.running then (st, attach_session system issued entry.session_id, true)
    else resume_selected system st issued

/-- The function `kill_selected`. -/
def kill_selected (_system : System) (st : PanelState) (issued : List Str) :
    PanelState × List Str × Bool :=
  match selected_session st with
  | (st, none) => (st, issued, false)
  | (st, some entry) =>
    if !entry.running then (st, issued, false)
    else if !(agent_tag.isPrefixOf entry.session_id) then (st, issued, false)
    else (st, issued ++ [kill_session_cmd entry.session_id], true)

/-! ## Rendering (`draw`) -/

/-- One piece of the rendered frame: literal text, or the string one of the
host primitives `Mv::to`, `Theme::c`, `Fx::b`, `Fx::ub`, `Fx::reset` returns. -/
inductive Piece where
  | text (s : Str) : Piece
  | mv (line col : Int) : Piece
  | theme (name : Str) : Piece
  | fx_b : Piece
  | fx_ub : Piece
  | fx_reset : Piece
deriving DecidableEq, Repr

/-- A hit region of `Input::mouse_mappings`: line, column, height, width. -/
structure MouseLoc where
  line : Int
  col : Int
  height : Int
  width : Int
deriving DecidableEq, Repr

/-- The table `Input::mouse_mappings`, as the list of its entries. -/
abbrev Mappings := List (Str × MouseLoc)

/-- The assignment `Input::mouse_mappings[key] = loc`. -/
def set_mapping (mouse : Mappings) (key : Str) (loc : MouseLoc) : Mappings :=
  if mouse.any (fun e => decide (e.1 = key)) then
    mouse.map (fun e => if e.1 = key then (key, loc) else e)
  else mouse ++ [(key, loc)]

/-- The call `std::to_string(n)` for an `int`. -/
def to_string (n : Int) : Str :=
  if n < 0 then '-' :: Nat.toDigits 10 n.natAbs else Nat.toDigits 10 n.toNat

/-- The element `sorted[i]` of a vector for an `int` index: `none` when the index
is outside the vector, where the C++ read is undefined. -/
def at_index (sorted : List SessionInfo) (i : Int) : Option SessionInfo :=
  if 0 ≤ i then sorted[i.toNat]? else none

/-- The part of `draw` that stores the list and settles selection and scroll
(lines 445-453), for the `max_entries` of the viewport. -/
def draw_select (st : PanelState) (sessions : List SessionInfo) (max_entries : Int) :
    PanelState :=
  let last_sessions := sessions.reverse
  let size : Int := last_sessions.length
  let selected_index := st.selected_index
  let selected_index := if selected_index < 0 then 0 else selected_index
  let selected_index := if selected_index ≥ size then size - 1 else selected_index
  let scroll_offset := st.scroll_offset
  let scroll_offset := if selected_index < scroll_offset then selected_index else scroll_offset
  let scroll_offset :=
    if selected_index ≥ scroll_offset + max_entries then max 0 (selected_index - max_entries + 1)
    else scroll_offset
  { st with last_visible_rows := max_entries, last_sessions := last_sessions,
            selected_index := selected_index, scroll_offset := scroll_offset }

/-- The indices `i` at which the row loop of `draw` reads `sorted[i]`, from the
index `i` and row `line`, with `fuel` the number of indices left before
`end_index`. -/
def read_indices (max_entries end_index : Int) : Nat → Int → Int → List Int
  | 0, _, _ => []
  | fuel + 1, i, line =>
    if i < end_index then
      i :: (if line ≥ max_entries then [] else read_indices max_entries end_index fuel (i + 1)
        (line + 1))
    else []

/-- The row loop of `draw` (lines 456-473) from the index `i` and row `line`, with
`fuel` the number of indices left before `end_index`: the final `line`, frame
and hit regions, or `none` when it reads `sorted` outside its bounds. -/
def draw_rows (ljust rjust : Str → Int → Str) (st : PanelState) (w : Columns)
    (inner_width max_entries end_index : Int) (sorted : List SessionInfo) :
    Nat → Int → Int → List Piece → Mappings → Option (Int × List Piece × Mappings)
  | 0, _, line, out, mouse => some (line, out, mouse)
  | fuel + 1, i, line, out, mouse =>
    if i < end_index then
      match at_index sorted i with
      | none => none
      | some entry =>
        if line ≥ max_entries then some (line, out, mouse)
        else
          let status : Str :=
            if entry.running then (if entry.waiting then "Waiting".toList else "Running".toList)
            else "Stopped".toList
          let status_color : Piece :=
            if entry.running then
              (if entry.waiting then .theme "hi_fg".toList else .theme "proc_misc".toList)
            else .theme "inactive_fg".toList
          let row := build_row ljust rjust w inner_width entry.session_id entry.agent_type
            (if entry.pid ≠ 0 then to_string entry.pid else "-".toList) status entry.time_str
            entry.command
          let is_selected := st.focused && decide (i = st.selected_index)
          let out :=
            if is_selected then
              out ++ [.mv (st.y + 2 + line) (st.x + 1), .theme "selected_bg".toList,
                .theme "selected_fg".toList, .text row, .theme "main_fg".toList]
            else out ++ [.mv (st.y + 2 + line) (st.x + 1), .theme "main_fg".toList, .text row]
          let out := out ++
            [.mv (st.y + 2 + line)
               (st.x + 1 + w.session_w + 1 + (if w.type_w > 0 then w.type_w + 1 else 0)
                 + (if w.pid_w > 0 then w.pid_w + 1 else 0)),
             status_color, .text status, .theme "main_fg".toList]
          let mouse := set_mapping mouse ("agent:".toList ++ entry.session_id)
            { line := st.y + 2 + line, col := st.x + 1, height := 1, width := inner_width }
          draw_rows ljust rjust st w inner_width max_entries end_index sorted fuel (i + 1)
            (line + 1) out mouse
    else some (line, out, mouse)

/-- The blank rows `draw` writes from row `line` up to `max_entries` (lines 481-483). -/
def blank_rows (st : PanelState) (inner_width max_entries line : Int) : List Piece :=
  (List.range (max_entries - line).toNat).flatMap (fun k =>
    [.mv (st.y + 2 + (line + (k : Int))) (st.x + 1), .text (List.replicate inner_width.toNat ' ')])

/-- The function `draw` on the panel state and the hit-region table: the new
state, the new table and the frame, or `none` when the row loop reads the list
outside its bounds.  The unused parameter `no_update` is left out. -/
def draw (ljust rjust : Str → Int → Str) (st : PanelState) (mouse : Mappings)
    (sessions : List SessionInfo) (force_redraw : Bool) :
    Option (PanelState × Mappings × List Piece) :=
  let out : List Piece := if st.redraw || force_redraw then [.text st.box] else []
  let mouse := mouse.filter (fun e => !("agent:".toList.isPrefixOf e.1))
  let inner_width : Int := max 0 (st.width - 2)
  let rows : Int := max 0 (st.height - 2)
  if inner_width = 0 ∨ rows = 0 then some ({ st with redraw := false }, mouse, out)
  else
    let w := column_widths inner_width
    let header := build_row ljust rjust w inner_width "Session:".toList "Type:".toList
      "Pid:".toList "Status:".toList "Time:".toList "Command:".toList
    let out := out ++ [.mv (st.y + 1) (st.x + 1), .theme "title".toList, .fx_b, .text header,
      .fx_ub, .theme "main_fg".toList]
    let max_entries : Int := max 0 (rows - 1)
    let st := draw_select st sessions max_entries
    let sorted := sessions.reverse
    let end_index : Int := min (sorted.length : Int) (st.scroll_offset + max_entries)
    match draw_rows ljust rjust st w inner_width max_entries end_index sorted
        (end_index - st.scroll_offset).toNat st.scroll_offset 0 out mouse with
    | none => none
    | some (line, out, mouse) =>
      let shown_empty := sessions.isEmpty && decide (max_entries > 0)
      let out :=
        if shown_empty then
          out ++ [.mv (st.y + 2) (st.x + 1), .theme "inactive_fg".toList,
            .text (ljust "No agent sessions found".toList inner_width), .theme "main_fg".toList]
        else out
      let line := if shown_empty then 1 else line
      let out := out ++ blank_rows st inner_width max_entries line
      some ({ st with redraw := false }, mouse, out ++ [.fx_reset])

/-- Modelled from the spec: `Tools::ljust(str, width, true)` of the host
(`btop_tools`, outside this module), which left-justifies `str` to exactly
`width` columns, cutting what does not fit. -/
def ljust_spec (s : Str) (width : Int) : Str :=
  (s ++ List.replicate (width.toNat - s.length) ' ').take width.toNat

/-- Modelled from the spec: `Tools::rjust(str, width, true)` of the host
(`btop_tools`, outside this module), which right-justifies `str` to exactly
`width` columns, cutting what does not fit. -/
def rjust_spec (s : Str) (width : Int) : Str :=
  (List.replicate (width.toNat - s.length) ' ' ++ s).take width.toNat

/-- The row `build_row` has assembled before its final `Tools::ljust`. -/
def row_body (ljust rjust : Str → Int → Str) (w : Columns)
    (session type pid status time cmd : Str) : Str :=
  let row : Str := []
  let row := row ++ ljust session w.session_w
  let row := row ++ [' ']
  let row := if w.type_w > 0 then (row ++ ljust type w.type_w) ++ [' '] else row
  let row := if w.pid_w > 0 then (row ++ rjust pid w.pid_w) ++ [' '] else row
  let row := row ++ ljust status w.status_w
  let row := if w.time_w > 0 then (row ++ [' ']) ++ ljust time w.time_w else row
  let row := if w.cmd_w > 0 then (row ++ [' ']) ++ ljust cmd w.cmd_w else row
  row

/-- The number of columns `build_row` asks for before its final `Tools::ljust`:
the widths of the fields it emits and one for each separator it inserts. -/
def row_width (w : Columns) : Int :=
  w.session_w + 1
    + (if w.type_w > 0 then w.type_w + 1 else 0)
    + (if w.pid_w > 0 then w.pid_w + 1 else 0)
    + w.status_w
    + (if w.time_w > 0 then 1 + w.time_w else 0)
    + (if w.cmd_w > 0 then 1 + w.cmd_w else 0)

/-! ## Sample data for the worked instances -/

/-- A focused panel showing three visible rows of a three-record list, the
selection on the first record. -/
def nav_sample : PanelState :=
  { focused := true,
    last_visible_rows := 3,
    last_sessions :=
      [ { session_id := "agent-claude-1".toList, agent_type := "claude".toList,
          time_str := "10:00:00".toList, command := "claude".toList },
        { session_id := "agent-codex-2".toList, agent_type := "codex".toList,
          time_str := "10:00:05".toList, command := "codex".toList },
        { session_id := "proc-80".toList, agent_type := "gemini".toList,
          time_str := "live".toList, command := "gemini".toList, pid := 80, running := true } ],
    selected_index := 0 }

/-- The sample panel with the selection on the last record and a visible-row
count of `INT_MAX`. -/
def nav_tall : PanelState :=
  { nav_sample with selected_index := 2, last_visible_rows := 2147483647 }

/-- The sample panel grown to six records, the selection on the fifth, with the
visible-row count `INT_MAX - 3` that `draw` stores for `height = INT_MAX`. -/
def nav_full_height : PanelState :=
  { nav_sample with
    last_sessions := nav_sample.last_sessions ++ nav_sample.last_sessions,
    selected_index := 4, last_visible_rows := 2147483644 }

/-- A log of 30 declared sessions `agent-claude-1` to `agent-claude-30`. -/
def log_30 : Str :=
  ((List.range 30).map (fun i =>
    "2024-05-01T10:00:00 :: agent-claude-".toList ++ Nat.toDigits 10 (i + 1)
      ++ " :: claude --resume\n".toList)).flatten

/-- A world with the 30-session log, no live multiplexer session and no agent
process. -/
def world_30 : World :=
  { log := some log_30,
    tmux_map := fun _ => none,
    procs := [ { pid := 1, cmdline := "/sbin/init".toList, comm := "init".toList } ] }

/-- A log that declares the session `agent-claude-1` on two lines. -/
def log_twice : Str :=
  ("2024-05-01T10:00:00 :: agent-claude-1 :: claude\n"
    ++ "2024-05-01T11:30:00 :: agent-claude-1 :: claude --resume\n").toList

/-- A world with the twice-declared session, no live multiplexer session and no
process. -/
def world_twice : World :=
  { log := some log_twice, tmux_map := fun _ => none, procs := [] }

/-- A log of two sessions, `agent-claude-1` (not live) and `agent-codex-2` (live). -/
def log_two : Str :=
  ("2024-05-01T10:00:00 :: agent-claude-1 :: claude\n"
    ++ "2024-05-01T10:00:05 :: agent-codex-2 :: codex --full-auto\n").toList

/-- A world where `agent-codex-2` is live under pid 77 with a prompt on screen, and
the process table holds that pid, an undeclared `gemini` process and an editor. -/
def world_two : World :=
  { log := some log_two,
    tmux_map := fun name =>
      if name = "agent-codex-2".toList
      then some { pid := 77, last_output := "Apply patch? y/n ".toList }
      else none,
    procs :=
      [ { pid := 77, cmdline := "codex --full-auto".toList, comm := "codex".toList },
        { pid := 80, cmdline := "/usr/bin/gemini --x".toList, comm := "node".toList },
        { pid := 81, cmdline := "vim notes".toList, comm := "vim".toList } ] }

/-- A log that declares a session under the id `proc-80`. -/
def log_proc : Str := "2024-05-01T10:00:00 :: proc-80 :: gemini\n".toList

/-- A world where the declared `proc-80` is not live and process 80 is an
undeclared `gemini` process. -/
def world_proc : World :=
  { log := some log_proc,
    tmux_map := fun _ => none,
    procs := [ { pid := 80, cmdline := "/usr/bin/gemini --x".toList, comm := "node".toList } ] }

/-- A panel whose last rendered list is the running orphan process `proc-80`. -/
def panel_orphan : PanelState :=
  { last_sessions :=
      [ { session_id := "proc-80".toList, agent_type := "gemini".toList,
          time_str := "live".toList, command := "/usr/bin/gemini --x".toList,
          pid := 80, running := true } ] }

/-- A panel whose last rendered list is the stopped session `claude-old`, whose id
lacks the `agent-` tag. -/
def panel_untagged : PanelState :=
  { last_sessions :=
      [ { session_id := "claude-old".toList, agent_type := "unknown".toList,
          time_str := "10:00:00".toList, command := "claude".toList } ] }

/-- An external world in which every command succeeds. -/
def system_ok : System := fun _ _ => 0

/-- A world with the 30-session log, no live multiplexer session, and one
undeclared `gemini` process. -/
def world_30_orphan : World :=
  { log := some log_30,
    tmux_map := fun _ => none,
    procs := [ { pid := 80, cmdline := "/usr/bin/gemini --x".toList, comm := "node".toList } ] }

/-- A world with an empty log and 26 undeclared `claude` processes, pids 100 to 125. -/
def world_26_orphans : World :=
  { log := some [],
    tmux_map := fun _ => none,
    procs := (List.range 26).map (fun i =>
      { pid := 100 + i, cmdline := "claude".toList, comm := "claude".toList }) }

/-! # Properties -/

/-! ## Log-line parsing -/

/-- A field that neither contains the separator nor ends in ` ::` is followed by
the first separator of the text. -/
theorem find_at_sep (t : Str) (hc : ¬ sep <:+: t) (he : ¬ [' ', ':', ':'] <:+ t) :
    ∀ (r : Str) (i : Nat), find_at sep (t ++ sep ++ r) i = some (i + t.length) := by
  induction t with
  | nil => intro r i; simp [find_at, sep, List.isPrefixOf]
  | cons c cs ih =>
    intro r i
    have hc' : ¬ sep <:+: cs := fun h => hc (h.trans (List.suffix_cons c cs).isInfix)
    have he' : ¬ [' ', ':', ':'] <:+ cs := fun h => he (h.trans (List.suffix_cons c cs))
    have hpre : sep.isPrefixOf (c :: cs ++ sep ++ r) = false := by
      rw [Bool.eq_false_iff]
      intro h
      rw [List.isPrefixOf_iff_prefix] at h
      match cs, hc, he, h with
      | [], _, _, h => simp [sep, List.cons_prefix_cons] at h
      | [d], _, _, h => simp [sep, List.cons_prefix_cons] at h
      | [d, e], _, he, h =>
        simp [sep, List.cons_prefix_cons] at h
        apply he
        obtain ⟨h1, h2, h3⟩ := h
        subst h1 h2 h3
        exact List.suffix_refl _
      | d :: e :: f :: rest, hc, _, h =>
        simp [sep, List.cons_prefix_cons] at h
        apply hc
        obtain ⟨h1, h2, h3, h4⟩ := h
        subst h1 h2 h3 h4
        exact (List.prefix_append sep rest).isInfix
    have e : find_at sep (c :: cs ++ sep ++ r) i
        = if sep.isPrefixOf (c :: cs ++ sep ++ r) then some i
          else find_at sep (cs ++ sep ++ r) (i + 1) := rfl
    rw [e, hpre, ih hc' he' r (i + 1), List.length_cons]
    simp only [Bool.false_eq_true, if_false, Option.some.injEq]
    omega


/-- Dropping a field and its separator leaves the rest of the line. -/
theorem drop_field (t r : Str) : (t ++ sep ++ r).drop (t.length + 4) = r := by
  have h : (t ++ sep).length = t.length + 4 := by simp [sep]
  rw [← h, List.drop_left]

/-- C1 (amended): for every timestamp `t` and session id `s` that neither contain
the separator ` :: ` nor end in ` ::`, and every command `c` (which may contain
the separator), the parsing step of `collect` on `t :: s :: c` yields exactly
`(t, s, c)`. -/
theorem parse_line_round_trip (t s c : Str)
    (ht : ¬ sep <:+: t) (ht' : ¬ [' ', ':', ':'] <:+ t)
    (hs : ¬ sep <:+: s) (hs' : ¬ [' ', ':', ':'] <:+ s) :
    parse_line (t ++ sep ++ s ++ sep ++ c) = some (t, s, c) := by
  have hline : t ++ sep ++ s ++ sep ++ c = t ++ sep ++ (s ++ sep ++ c) := by
    simp [List.append_assoc]
  have hlen : (t ++ sep ++ (s ++ sep ++ c)).length = t.length + 4 + (s.length + 4 + c.length) := by
    simp only [List.length_append, sep, List.length_cons, List.length_nil]
  have h1 : find (t ++ sep ++ (s ++ sep ++ c)) sep 0 = some t.length := by
    unfold find
    rw [if_neg (by omega), List.drop_zero, find_at_sep t ht ht']
    simp
  have h2 : find (t ++ sep ++ (s ++ sep ++ c)) sep (t.length + 4)
      = some (t.length + 4 + s.length) := by
    unfold find
    rw [if_neg (by rw [hlen]; omega), drop_field, find_at_sep s hs hs']
  rw [hline]
  unfold parse_line
  simp only [h1, h2]
  have e1 : substr (t ++ sep ++ (s ++ sep ++ c)) 0 t.length = t := by
    simp [substr, List.append_assoc]
  have e2 : substr (t ++ sep ++ (s ++ sep ++ c)) (t.length + 4)
      (t.length + 4 + s.length - t.length - 4) = s := by
    have : t.length + 4 + s.length - t.length - 4 = s.length := by omega
    rw [this]
    unfold substr
    rw [drop_field]
    simp [List.append_assoc]
  have e3 : substr_from (t ++ sep ++ (s ++ sep ++ c)) (t.length + 4 + s.length + 4) = c := by
    unfold substr_from
    have : t.length + 4 + s.length + 4 = (t.length + 4) + (s.length + 4) := by omega
    rw [this, ← List.drop_drop, drop_field, drop_field]
  rw [e1, e2, e3]

/-- Witness of `parse_line_round_trip`: a log line whose command contains the
separator. -/
theorem parse_line_round_trip_witness :
    parse_line ("2024-05-01T10:00:00".toList ++ sep ++ "agent-claude-1".toList ++ sep
        ++ "claude :: resume".toList)
      = some ("2024-05-01T10:00:00".toList, "agent-claude-1".toList, "claude :: resume".toList) :=
  parse_line_round_trip _ _ _ (by decide) (by decide) (by decide) (by decide)

/-- C1 (as stated) fails: the timestamp `x ::` does not contain ` :: `, yet in
`x :: :: s :: c` the first separator starts one byte after `x`, so the parsed
timestamp is `x` and the parsed session id is `:: s`. -/
theorem parse_line_separator_overlap :
    ¬ sep <:+: "x ::".toList ∧ ¬ sep <:+: "s".toList ∧
    parse_line ("x ::".toList ++ sep ++ "s".toList ++ sep ++ "c".toList)
      = some ("x".toList, ":: s".toList, "c".toList) ∧
    parse_line ("x ::".toList ++ sep ++ "s".toList ++ sep ++ "c".toList)
      ≠ some ("x ::".toList, "s".toList, "c".toList) := by
  decide

/-! ## `extract_agent_type` and `format_time` -/

/-- A byte absent from `t` is first found right after `t`. -/
theorem find_char_at_append (c : Char) (t : Str) (h : c ∉ t) :
    ∀ (r : Str) (i : Nat), find_char_at c (t ++ c :: r) i = some (i + t.length) := by
  induction t with
  | nil => intro r i; simp [find_char_at]
  | cons d ds ih =>
    intro r i
    have hd : d ≠ c := fun e => h (by simp [e])
    have hds : c ∉ ds := fun e => h (List.mem_cons_of_mem _ e)
    have e : find_char_at c (d :: ds ++ c :: r) i = find_char_at c (ds ++ c :: r) (i + 1) := by
      simp [find_char_at, hd]
    rw [e, ih hds r (i + 1), List.length_cons]
    simp only [Option.some.injEq]
    omega

/-- A byte absent from `t` is not found in `t`. -/
theorem find_char_at_absent (c : Char) (t : Str) (h : c ∉ t) :
    ∀ i : Nat, find_char_at c t i = none := by
  induction t with
  | nil => intro i; rfl
  | cons d ds ih =>
    intro i
    have hd : d ≠ c := fun e => h (by simp [e])
    have hds : c ∉ ds := fun e => h (List.mem_cons_of_mem _ e)
    simp [find_char_at, hd, ih hds]

/-- A found byte splits the text at its first occurrence. -/
theorem find_char_at_some (c : Char) (t : Str) :
    ∀ (i p : Nat), find_char_at c t i = some p →
      ∃ pre post, t = pre ++ c :: post ∧ c ∉ pre ∧ p = i + pre.length := by
  induction t with
  | nil => intro i p h; simp [find_char_at] at h
  | cons d ds ih =>
    intro i p h
    by_cases hd : d = c
    · subst hd
      simp [find_char_at] at h
      exact ⟨[], ds, rfl, by simp, by simp [h]⟩
    · simp only [find_char_at, hd, if_false] at h
      obtain ⟨pre, post, e, hn, hp⟩ := ih (i + 1) p h
      refine ⟨d :: pre, post, by simp [e], ?_, by simp [hp]; omega⟩
      intro hm
      rcases List.mem_cons.mp hm with hm | hm
      · exact hd hm.symm
      · exact hn hm

/-- C8: `extract_agent_type` gives `unknown` for an id that does not start with
`agent-`; for `agent-` ++ t ++ `-` ++ r with no `-` in `t` it gives `t`; for
`agent-` ++ t with no `-` in `t` it gives `t`; so `agent-claude-42` gives
`claude`, `agent-unknown` gives `unknown` and `nope` gives `unknown`. -/
theorem extract_agent_type_spec :
    (∀ id : Str, ¬ agent_tag <+: id → extract_agent_type id = "unknown".toList) ∧
    (∀ t r : Str, '-' ∉ t → extract_agent_type (agent_tag ++ t ++ '-' :: r) = t) ∧
    (∀ t : Str, '-' ∉ t → extract_agent_type (agent_tag ++ t) = t) ∧
    extract_agent_type "agent-claude-42".toList = "claude".toList ∧
    extract_agent_type "agent-unknown".toList = "unknown".toList ∧
    extract_agent_type "nope".toList = "unknown".toList := by
  refine ⟨?_, ?_, ?_, by decide, by decide, by decide⟩
  · intro id h
    have : agent_tag.isPrefixOf id = false := by
      rw [Bool.eq_false_iff]
      intro hp
      exact h (List.isPrefixOf_iff_prefix.mp hp)
    simp [extract_agent_type, this]
  · intro t r h
    have hp : agent_tag.isPrefixOf (agent_tag ++ t ++ '-' :: r) = true := by
      rw [List.isPrefixOf_iff_prefix, List.append_assoc]
      exact List.prefix_append _ _
    have hd : substr_from (agent_tag ++ t ++ '-' :: r) agent_tag.length = t ++ '-' :: r := by
      simp [substr_from, List.append_assoc]
    have hf : find_char (t ++ '-' :: r) '-' = some t.length := by
      simp [find_char, find_char_at_append '-' t h r 0]
    unfold extract_agent_type
    rw [hp]
    simp only [Bool.not_true, Bool.false_eq_true, if_false]
    rw [hd, hf]
    simp [substr]
  · intro t h
    have hp : agent_tag.isPrefixOf (agent_tag ++ t) = true := by
      rw [List.isPrefixOf_iff_prefix]
      exact List.prefix_append _ _
    have hd : substr_from (agent_tag ++ t) agent_tag.length = t := by
      simp [substr_from]
    have hf : find_char t '-' = none := find_char_at_absent '-' t h 0
    unfold extract_agent_type
    rw [hp]
    simp only [Bool.not_true, Bool.false_eq_true, if_false]
    rw [hd, hf]

/-- Witness of `extract_agent_type_spec` on `nope`, `agent-codex-7-b` and
`agent-gemini`. -/
theorem extract_agent_type_spec_witness :
    extract_agent_type "nope".toList = "unknown".toList ∧
    extract_agent_type (agent_tag ++ "codex".toList ++ '-' :: "7-b".toList) = "codex".toList ∧
    extract_agent_type (agent_tag ++ "gemini".toList) = "gemini".toList :=
  ⟨extract_agent_type_spec.1 "nope".toList (by decide),
   extract_agent_type_spec.2.1 "codex".toList "7-b".toList (by decide),
   extract_agent_type_spec.2.2.1 "gemini".toList (by decide)⟩

/-- The guarded position of `format_time` when a `T` with at least 8 bytes after
it exists. -/
theorem format_time_guard_some (pre post : Str) (hpre : 'T' ∉ pre) (hlen : 8 ≤ post.length) :
    (find_char (pre ++ 'T' :: post) 'T').filter
        (fun t_pos => decide ((pre ++ 'T' :: post).length ≥ t_pos + 9))
      = some pre.length := by
  have hf : find_char (pre ++ 'T' :: post) 'T' = some pre.length := by
    simp [find_char, find_char_at_append 'T' pre hpre post 0]
  rw [hf]
  simp [Option.filter, hlen]

/-- The guarded position of `format_time` is absent exactly when no `T` has 8
bytes after its first occurrence. -/
theorem format_time_guard_none (ts : Str)
    (h : ¬ ∃ pre post, ts = pre ++ 'T' :: post ∧ 'T' ∉ pre ∧ 8 ≤ post.length) :
    (find_char ts 'T').filter (fun t_pos => decide (ts.length ≥ t_pos + 9)) = none := by
  cases hf : find_char ts 'T' with
  | none => rfl
  | some p =>
    obtain ⟨pre, post, e, hn, hp⟩ := find_char_at_some 'T' ts 0 p hf
    have hlen : ¬ (ts.length ≥ p + 9) := by
      intro hge
      apply h
      refine ⟨pre, post, e, hn, ?_⟩
      rw [e] at hge
      simp only [List.length_append, List.length_cons] at hge
      omega
    simp [Option.filter, hlen]

/-- C10: if `ts` contains `T` and at least 8 bytes follow its first `T`,
`format_time ts` is the 8 bytes after that `T`; otherwise, if `ts` has at least
8 bytes, it is the last 8 bytes of `ts`; otherwise it is `ts` itself.  So
`date ++ T ++ hms ++ suffix`, with no `T` in `date` and `hms` of 8 bytes, gives
`hms`. -/
theorem format_time_spec (ts : Str) :
    (∀ pre post : Str, ts = pre ++ 'T' :: post → 'T' ∉ pre → 8 ≤ post.length →
      format_time ts = post.take 8) ∧
    ((¬ ∃ pre post, ts = pre ++ 'T' :: post ∧ 'T' ∉ pre ∧ 8 ≤ post.length) →
      8 ≤ ts.length → format_time ts = ts.drop (ts.length - 8)) ∧
    ((¬ ∃ pre post, ts = pre ++ 'T' :: post ∧ 'T' ∉ pre ∧ 8 ≤ post.length) →
      ts.length < 8 → format_time ts = ts) ∧
    (∀ date hms suffix : Str, ts = date ++ 'T' :: (hms ++ suffix) → 'T' ∉ date →
      hms.length = 8 → format_time ts = hms) := by
  have key : ∀ pre post : Str, ts = pre ++ 'T' :: post → 'T' ∉ pre → 8 ≤ post.length →
      format_time ts = post.take 8 := by
    intro pre post e hpre hlen
    subst e
    unfold format_time
    rw [format_time_guard_some pre post hpre hlen]
    have : (pre ++ 'T' :: post).drop (pre.length + 1) = post := by
      have h1 : (pre ++ 'T' :: post) = (pre ++ ['T']) ++ post := by simp
      have h2 : pre.length + 1 = (pre ++ ['T']).length := by simp
      rw [h1, h2, List.drop_left]
    simp only [substr, this]
  refine ⟨key, ?_, ?_, ?_⟩
  · intro h hlen
    unfold format_time
    rw [format_time_guard_none ts h]
    simp [hlen, substr_from]
  · intro h hlen
    unfold format_time
    rw [format_time_guard_none ts h]
    have : ¬ (ts.length ≥ 8) := by omega
    simp [this]
  · intro date hms suffix e hdate hlen
    rw [key date (hms ++ suffix) e hdate (by simp [hlen])]
    rw [← hlen, List.take_left]

/-- Witness of `format_time_spec`: an ISO timestamp, a space-separated one with no
`T`, and a short one. -/
theorem format_time_spec_witness :
    format_time "2024-05-01T10:20:30Z".toList = "10:20:30".toList ∧
    format_time "2024-05-01 10:20:30".toList = "10:20:30".toList ∧
    format_time "10:20".toList = "10:20".toList ∧
    format_time "2024-05-01T10:20:30+02:00".toList = "10:20:30".toList :=
  ⟨(format_time_spec "2024-05-01T10:20:30Z".toList).1
      "2024-05-01".toList "10:20:30Z".toList (by decide) (by decide) (by decide),
   (format_time_spec "2024-05-01 10:20:30".toList).2.1
      (by
        rintro ⟨pre, post, e, -, -⟩
        have hm : 'T' ∈ "2024-05-01 10:20:30".toList := by rw [e]; simp
        exact absurd hm (by decide))
      (by decide),
   (format_time_spec "10:20".toList).2.2.1
      (by
        rintro ⟨pre, post, e, -, -⟩
        have hm : 'T' ∈ "10:20".toList := by rw [e]; simp
        exact absurd hm (by decide))
      (by decide),
   (format_time_spec "2024-05-01T10:20:30+02:00".toList).2.2.2
      "2024-05-01".toList "10:20:30".toList "+02:00".toList (by decide) (by decide) (by decide)⟩

/-! ## Adequacy of the pattern matcher -/

/-- A match of the empty word makes the expression nullable. -/
theorem nullable_of_matches (r : Regex) (w rest : Str) (h : Regex.Matches r w rest) :
    w = [] → r.nullable rest.isEmpty = true := by
  induction h with
  | eps rest => intro _; rfl
  | chr c rest => intro e; cases e
  | cls c cs rest h => intro e; cases e
  | space c rest h => intro e; cases e
  | eoi => intro _; rfl
  | seq a b u v rest ha hb iha ihb =>
    intro e
    obtain ⟨hu, hv⟩ := List.append_eq_nil.mp e
    have h1 := iha hu
    have h2 := ihb hv
    rw [hv, List.nil_append] at h1
    simp only [Regex.nullable, h1, h2, Bool.and_self]
  | alt_left a b u rest ha iha =>
    intro e
    simp only [Regex.nullable, iha e, Bool.true_or]
  | alt_right a b u rest hb ihb =>
    intro e
    simp only [Regex.nullable, ihb e, Bool.or_true]
  | star_nil a rest => intro _; rfl
  | star_cons a u v rest ha hs iha ihs => intro _; rfl

/-- A nullable expression matches the empty word. -/
theorem matches_of_nullable (r : Regex) :
    ∀ rest : Str, r.nullable rest.isEmpty = true → Regex.Matches r [] rest := by
  induction r with
  | nothing => intro rest h; simp [Regex.nullable] at h
  | eps => intro rest _; exact .eps rest
  | chr c => intro rest h; simp [Regex.nullable] at h
  | cls cs => intro rest h; simp [Regex.nullable] at h
  | space => intro rest h; simp [Regex.nullable] at h
  | eoi =>
    intro rest h
    cases rest with
    | nil => exact .eoi
    | cons c cs => simp [Regex.nullable] at h
  | seq a b iha ihb =>
    intro rest h
    simp only [Regex.nullable, Bool.and_eq_true] at h
    exact .seq a b [] [] rest (iha rest h.1) (ihb rest h.2)
  | alt a b iha ihb =>
    intro rest h
    simp only [Regex.nullable, Bool.or_eq_true] at h
    rcases h with h | h
    · exact .alt_left a b [] rest (iha rest h)
    · exact .alt_right a b [] rest (ihb rest h)
  | star a _ => intro rest _; exact .star_nil a rest

/-- A match of the derivative by `c` is a match of a word that starts with `c`. -/
theorem matches_of_deriv (r : Regex) (c : Char) :
    ∀ u rest : Str, Regex.Matches (r.deriv c) u rest → Regex.Matches r (c :: u) rest := by
  induction r with
  | nothing => intro u rest h; cases h
  | eps => intro u rest h; cases h
  | chr d =>
    intro u rest h
    by_cases e : c = d
    · simp only [Regex.deriv, e, if_true] at h
      cases h
      rw [e]
      exact .chr d rest
    · simp only [Regex.deriv, e, if_false] at h
      cases h
  | cls cs =>
    intro u rest h
    by_cases e : c ∈ cs
    · simp only [Regex.deriv, e, if_true] at h
      cases h
      exact .cls c cs rest e
    · simp only [Regex.deriv, e, if_false] at h
      cases h
  | space =>
    intro u rest h
    by_cases e : is_space c = true
    · simp only [Regex.deriv, e, if_true] at h
      cases h
      exact .space c rest e
    · simp only [Regex.deriv, e, if_false] at h
      cases h
  | eoi => intro u rest h; cases h
  | seq a b iha ihb =>
    intro u rest h
    have hseq : ∀ w : Str, Regex.Matches (.seq (a.deriv c) b) w rest →
        Regex.Matches (.seq a b) (c :: w) rest := by
      intro w hw
      cases hw with
      | seq _ _ u1 u2 _ h1 h2 => exact .seq a b (c :: u1) u2 rest (iha u1 _ h1) h2
    by_cases hn : a.nullable false = true
    · simp only [Regex.deriv, hn, if_true] at h
      cases h with
      | alt_left _ _ _ _ h1 => exact hseq u h1
      | alt_right _ _ _ _ h2 =>
        have ha : Regex.Matches a [] ((c :: u) ++ rest) := matches_of_nullable a _ hn
        exact .seq a b [] (c :: u) rest ha (ihb u rest h2)
    · simp only [Regex.deriv, hn] at h
      exact hseq u h
  | alt a b iha ihb =>
    intro u rest h
    simp only [Regex.deriv] at h
    cases h with
    | alt_left _ _ _ _ h1 => exact .alt_left a b _ rest (iha u rest h1)
    | alt_right _ _ _ _ h2 => exact .alt_right a b _ rest (ihb u rest h2)
  | star a iha =>
    intro u rest h
    simp only [Regex.deriv] at h
    cases h with
    | seq _ _ u1 u2 _ h1 h2 => exact .star_cons a (c :: u1) u2 rest (iha u1 _ h1) h2

/-- A match of a word that starts with `c` is a match of the derivative by `c`. -/
theorem deriv_of_matches (r : Regex) (w rest : Str) (h : Regex.Matches r w rest) :
    ∀ (c : Char) (u : Str), w = c :: u → Regex.Matches (r.deriv c) u rest := by
  induction h with
  | eps rest => intro c u e; cases e
  | chr d rest =>
    intro c u e
    cases e
    simp only [Regex.deriv, if_true]
    exact .eps rest
  | cls d cs rest h =>
    intro c u e
    cases e
    simp only [Regex.deriv, h, if_true]
    exact .eps rest
  | space d rest h =>
    intro c u e
    cases e
    simp only [Regex.deriv, h, if_true]
    exact .eps rest
  | eoi => intro c u e; cases e
  | seq a b u1 v rest ha hb iha ihb =>
    intro c u e
    cases u1 with
    | nil =>
      rw [List.nil_append] at e
      have hn : a.nullable false = true := by
        have := nullable_of_matches a [] (v ++ rest) ha rfl
        rw [e] at this
        exact this
      simp only [Regex.deriv, hn, if_true]
      exact .alt_right _ _ u rest (ihb c u e)
    | cons d u1' =>
      rw [List.cons_append, List.cons.injEq] at e
      obtain ⟨hd, hu⟩ := e
      subst hd hu
      have hs : Regex.Matches (.seq (a.deriv d) b) (u1' ++ v) rest :=
        .seq _ b u1' v rest (iha d u1' rfl) hb
      by_cases hn : a.nullable false = true
      · simp only [Regex.deriv, hn, if_true]
        exact .alt_left _ _ _ rest hs
      · simp only [Regex.deriv, hn]
        exact hs
  | alt_left a b u0 rest ha iha =>
    intro c u e
    simp only [Regex.deriv]
    exact .alt_left _ _ u rest (iha c u e)
  | alt_right a b u0 rest hb ihb =>
    intro c u e
    simp only [Regex.deriv]
    exact .alt_right _ _ u rest (ihb c u e)
  | star_nil a rest => intro c u e; cases e
  | star_cons a u1 v rest ha hs iha ihs =>
    intro c u e
    cases u1 with
    | nil =>
      rw [List.nil_append] at e
      exact ihs c u e
    | cons d u1' =>
      rw [List.cons_append, List.cons.injEq] at e
      obtain ⟨hd, hu⟩ := e
      subst hd hu
      simp only [Regex.deriv]
      exact .seq _ _ u1' v rest (iha d u1' rfl) hs

/-- The matcher `match_here` accepts exactly the texts with an initial segment
that the expression matches. -/
theorem match_here_iff (s : Str) :
    ∀ r : Regex, match_here r s = true ↔ ∃ u v, s = u ++ v ∧ Regex.Matches r u v := by
  induction s with
  | nil =>
    intro r
    constructor
    · intro h
      exact ⟨[], [], rfl, matches_of_nullable r [] h⟩
    · rintro ⟨u, v, e, h⟩
      obtain ⟨hu, hv⟩ := List.append_eq_nil.mp e.symm
      subst hu hv
      exact nullable_of_matches r [] [] h rfl
  | cons c cs ih =>
    intro r
    have e : match_here r (c :: cs) = (r.nullable false || match_here (r.deriv c) cs) := rfl
    rw [e, Bool.or_eq_true]
    constructor
    · rintro (h | h)
      · exact ⟨[], c :: cs, rfl, matches_of_nullable r (c :: cs) h⟩
      · obtain ⟨u, v, e', hm⟩ := (ih (r.deriv c)).mp h
        exact ⟨c :: u, v, by rw [e']; rfl, matches_of_deriv r c u v hm⟩
    · rintro ⟨u, v, e', hm⟩
      cases u with
      | nil =>
        left
        rw [List.nil_append] at e'
        have := nullable_of_matches r [] v hm rfl
        rw [← e'] at this
        exact this
      | cons d u' =>
        right
        rw [List.cons_append, List.cons.injEq] at e'
        obtain ⟨hd, hu⟩ := e'
        subst hd
        exact (ih (r.deriv c)).mpr ⟨u', v, hu, deriv_of_matches r _ v hm c u' rfl⟩

/-- The search `regex_search` succeeds exactly when the expression matches a
segment `u` of the text `p ++ u ++ v`. -/
theorem regex_search_iff (r : Regex) (s : Str) :
    regex_search s r = true ↔ ∃ p u v, s = p ++ (u ++ v) ∧ Regex.Matches r u v := by
  induction s with
  | nil =>
    have e : regex_search [] r = match_here r [] := rfl
    rw [e, match_here_iff]
    constructor
    · rintro ⟨u, v, e', h⟩
      exact ⟨[], u, v, e', h⟩
    · rintro ⟨p, u, v, e', h⟩
      obtain ⟨hp, huv⟩ := List.append_eq_nil.mp e'.symm
      exact ⟨u, v, huv.symm, h⟩
  | cons c cs ih =>
    have e : regex_search (c :: cs) r = (match_here r (c :: cs) || regex_search cs r) := rfl
    rw [e, Bool.or_eq_true, match_here_iff, ih]
    constructor
    · rintro (⟨u, v, e', h⟩ | ⟨p, u, v, e', h⟩)
      · exact ⟨[], u, v, e', h⟩
      · exact ⟨c :: p, u, v, by rw [e']; rfl, h⟩
    · rintro ⟨p, u, v, e', h⟩
      cases p with
      | nil => exact Or.inl ⟨u, v, e', h⟩
      | cons d p' =>
        rw [List.cons_append, List.cons.injEq] at e'
        exact Or.inr ⟨p', u, v, e'.2, h⟩

/-! ## The status classifier -/

/-- A match found in a tail of the text is found in the text. -/
theorem regex_search_append (r : Regex) (pre s : Str) (h : regex_search s r = true) :
    regex_search (pre ++ s) r = true := by
  induction pre with
  | nil => exact h
  | cons c cs ih =>
    have e : regex_search (c :: cs ++ s) r
        = (match_here r (c :: (cs ++ s)) || regex_search (cs ++ s) r) := rfl
    rw [e, ih, Bool.or_true]

/-- The classifier accepts any text one of whose tails it accepts. -/
theorem is_waiting_for_input_append (pre s : Str) (h : is_waiting_for_input s = true) :
    is_waiting_for_input (pre ++ s) = true := by
  unfold is_waiting_for_input at h ⊢
  rw [List.any_eq_true] at h ⊢
  obtain ⟨r, hr, hs⟩ := h
  exact ⟨r, hr, regex_search_append r pre s hs⟩

/-- C7: `is_waiting_for_input` is true for every text that ends in `Continue? `,
in `y/n`, in `$ ` or in `>`, and false for the text `done.` followed by a
newline. -/
theorem is_waiting_for_input_endings :
    (∀ pre : Str, is_waiting_for_input (pre ++ "Continue? ".toList) = true) ∧
    (∀ pre : Str, is_waiting_for_input (pre ++ "y/n".toList) = true) ∧
    (∀ pre : Str, is_waiting_for_input (pre ++ "$ ".toList) = true) ∧
    (∀ pre : Str, is_waiting_for_input (pre ++ ">".toList) = true) ∧
    is_waiting_for_input "done.\n".toList = false :=
  ⟨fun pre => is_waiting_for_input_append pre _ (by decide),
   fun pre => is_waiting_for_input_append pre _ (by decide),
   fun pre => is_waiting_for_input_append pre _ (by decide),
   fun pre => is_waiting_for_input_append pre _ (by decide),
   by decide⟩

/-! ## Double-click detection -/

/-- C6: for a non-empty session id `s` and click times `t1 ≤ t2` (64-bit
milliseconds), `register_click s` at `t1` followed by `register_click s` at
`t2` returns true the second time exactly when `t2 - t1 < 500`, so true 400 ms
apart and false 600 ms apart; and for two different ids the second call
returns false whatever the times. -/
theorem register_click_double (st : PanelState) :
    (∀ (s : Str) (t1 t2 : Nat), s ≠ [] → t1 ≤ t2 → t2 < 2 ^ 64 →
      ((register_click (register_click st t1 s).1 t2 s).2 = true ↔ t2 - t1 < 500)) ∧
    (∀ (s : Str) (t1 : Nat), s ≠ [] → t1 + 400 < 2 ^ 64 →
      (register_click (register_click st t1 s).1 (t1 + 400) s).2 = true) ∧
    (∀ (s : Str) (t1 : Nat), s ≠ [] → t1 + 600 < 2 ^ 64 →
      (register_click (register_click st t1 s).1 (t1 + 600) s).2 = false) ∧
    (∀ (s1 s2 : Str) (t1 t2 : Nat), s1 ≠ s2 →
      (register_click (register_click st t1 s1).1 t2 s2).2 = false) := by
  have hsess : ∀ (s : Str) (t : Nat), (register_click st t s).1.last_click_session = s := by
    intro s t
    unfold register_click
    dsimp only
    split <;> rfl
  have htime : ∀ (s : Str) (t : Nat), (register_click st t s).1.last_click_time = t := by
    intro s t
    unfold register_click
    dsimp only
    split <;> rfl
  have main : ∀ (s : Str) (t1 t2 : Nat), s ≠ [] → t1 ≤ t2 → t2 < 2 ^ 64 →
      ((register_click (register_click st t1 s).1 t2 s).2 = true ↔ t2 - t1 < 500) := by
    intro s t1 t2 hs h12 h2
    have hd : (t2 + 2 ^ 64 - t1) % 2 ^ 64 = t2 - t1 := by
      have : t2 + 2 ^ 64 - t1 = (t2 - t1) + 2 ^ 64 := by omega
      rw [this, Nat.add_mod_right, Nat.mod_eq_of_lt (by omega)]
    have he : s.isEmpty = false := by
      cases s with
      | nil => exact absurd rfl hs
      | cons _ _ => rfl
    show (!(register_click st t1 s).1.last_click_session.isEmpty
        && decide ((register_click st t1 s).1.last_click_session = s)
        && decide ((t2 + 2 ^ 64 - (register_click st t1 s).1.last_click_time) % 2 ^ 64 < 500))
        = true ↔ _
    rw [hsess, htime, hd, he]
    simp
  refine ⟨main, ?_, ?_, ?_⟩
  · intro s t1 hs h
    exact (main s t1 (t1 + 400) hs (by omega) h).2 (by omega)
  · intro s t1 hs h
    rw [Bool.eq_false_iff]
    intro hc
    have := (main s t1 (t1 + 600) hs (by omega) h).1 hc
    omega
  · intro s1 s2 t1 t2 hne
    show (!(register_click st t1 s1).1.last_click_session.isEmpty
        && decide ((register_click st t1 s1).1.last_click_session = s2)
        && decide ((t2 + 2 ^ 64 - (register_click st t1 s1).1.last_click_time) % 2 ^ 64 < 500))
        = false
    rw [hsess]
    simp [hne]

/-- Witness of `register_click_double` from the initial panel state: clicks on
`agent-x` at 1000 and 1499 ms, at 1000 and 1400 ms, at 1000 and 1600 ms, and a
click on `agent-y` right after one on `agent-x`. -/
theorem register_click_double_witness :
    ((register_click (register_click {} 1000 "agent-x".toList).1 1499 "agent-x".toList).2 = true
      ↔ 1499 - 1000 < 500) ∧
    (register_click (register_click {} 1000 "agent-x".toList).1 (1000 + 400) "agent-x".toList).2
      = true ∧
    (register_click (register_click {} 1000 "agent-x".toList).1 (1000 + 600) "agent-x".toList).2
      = false ∧
    (register_click (register_click {} 1000 "agent-x".toList).1 1000 "agent-y".toList).2
      = false :=
  ⟨(register_click_double {}).1 "agent-x".toList 1000 1499 (by decide) (by decide) (by decide),
   (register_click_double {}).2.1 "agent-x".toList 1000 (by decide) (by decide),
   (register_click_double {}).2.2.1 "agent-x".toList 1000 (by decide) (by decide),
   (register_click_double {}).2.2.2 "agent-x".toList "agent-y".toList 1000 1000 (by decide)⟩

/-! ## Keyboard navigation -/

/-- One `handle_nav_key` call keeps the rendered list and the visible-row count,
and keeps a selection that is inside a non-empty list inside it, when the last
index plus the visible-row count fits in an `int`. -/
theorem handle_nav_key_range (st : PanelState) (key : Str)
    (h0 : 0 ≤ st.selected_index)
    (h1 : st.selected_index ≤ (st.last_sessions.length : Int) - 1)
    (hfit : (st.last_sessions.length : Int) - 1 + st.last_visible_rows ≤ 2147483647) :
    (handle_nav_key st key).1.last_sessions = st.last_sessions ∧
    (handle_nav_key st key).1.last_visible_rows = st.last_visible_rows ∧
    0 ≤ (handle_nav_key st key).1.selected_index ∧
    (handle_nav_key st key).1.selected_index ≤ (st.last_sessions.length : Int) - 1 := by
  by_cases hg : (!st.focused || st.last_sessions.isEmpty
      || decide (st.last_visible_rows ≤ 0)) = true
  · unfold handle_nav_key
    rw [if_pos hg]
    exact ⟨rfl, rfl, h0, h1⟩
  · have hrows : 0 < st.last_visible_rows := by
      simp only [Bool.or_eq_true, decide_eq_true_eq, not_or] at hg
      omega
    unfold handle_nav_key
    rw [if_neg hg]
    split_ifs <;> refine ⟨rfl, rfl, ?_, ?_⟩ <;> dsimp only <;>
      (try simp only [wrap_int]) <;> (try split_ifs) <;> omega

/-- The range invariant along a whole series of `handle_nav_key` calls. -/
theorem nav_keys_range (keys : List Str) :
    ∀ st : PanelState, 0 ≤ st.selected_index →
      st.selected_index ≤ (st.last_sessions.length : Int) - 1 →
      (st.last_sessions.length : Int) - 1 + st.last_visible_rows ≤ 2147483647 →
      (nav_keys st keys).last_sessions = st.last_sessions ∧
      0 ≤ (nav_keys st keys).selected_index ∧
      (nav_keys st keys).selected_index ≤ (st.last_sessions.length : Int) - 1 := by
  induction keys with
  | nil => intro st h0 h1 _; exact ⟨rfl, h0, h1⟩
  | cons key rest ih =>
    intro st h0 h1 hfit
    obtain ⟨e, er, g0, g1⟩ := handle_nav_key_range st key h0 h1 hfit
    have := ih (handle_nav_key st key).1 g0 (by rw [e]; exact g1) (by rw [e, er]; exact hfit)
    rw [e] at this
    exact this

/-- C5 (amended): from a panel state whose last rendered list has `N ≥ 1` records
and `0 ≤ selected_index ≤ N - 1`, and in which `N - 1 + last_visible_rows` does
not exceed `INT_MAX = 2147483647`, after every call of any series of
`handle_nav_key` calls (the first `n` keys of `keys`, for every `n`)
`selected_index` is still in `[0, N - 1]`; and with an empty last rendered
list `handle_nav_key` returns false for every key. -/
theorem nav_selection_clamped :
    (∀ (st : PanelState) (keys : List Str), 1 ≤ st.last_sessions.length →
      0 ≤ st.selected_index → st.selected_index ≤ (st.last_sessions.length : Int) - 1 →
      (st.last_sessions.length : Int) - 1 + st.last_visible_rows ≤ 2147483647 →
      ∀ n : Nat, 0 ≤ (nav_keys st (keys.take n)).selected_index ∧
        (nav_keys st (keys.take n)).selected_index ≤ (st.last_sessions.length : Int) - 1) ∧
    (∀ (st : PanelState) (key : Str), st.last_sessions = [] →
      (handle_nav_key st key).2 = false) := by
  constructor
  · intro st keys _ h0 h1 hfit n
    exact (nav_keys_range (keys.take n) st h0 h1 hfit).2
  · intro st key h
    unfold handle_nav_key
    simp [h]

/-- Witness of `nav_selection_clamped`: on the sample panel the keys
end, down, page_down, up, page_up, up keep the selection in `[0, 2]`, and an
empty panel handles no key. -/
theorem nav_selection_clamped_witness :
    (0 ≤ (nav_keys nav_sample (["end".toList, "down".toList, "page_down".toList, "up".toList,
        "page_up".toList, "up".toList].take 4)).selected_index ∧
      (nav_keys nav_sample (["end".toList, "down".toList, "page_down".toList, "up".toList,
        "page_up".toList, "up".toList].take 4)).selected_index
        ≤ (nav_sample.last_sessions.length : Int) - 1) ∧
    (handle_nav_key { focused := true, last_visible_rows := 3 } "down".toList).2 = false :=
  ⟨nav_selection_clamped.1 nav_sample _ (by decide) (by decide) (by decide) (by decide) 4,
   nav_selection_clamped.2 _ _ rfl⟩

/-- C5 (as stated) fails: on a focused panel of three records with the selection
on the last one (index 2) and `last_visible_rows = INT_MAX`, the sum formed by
page_down leaves the `int` range and wraps, and `selected_index` becomes
-2147483647; with six records, the selection on index 4 and the visible-row
count `INT_MAX - 3` that `draw` stores for `height = INT_MAX`, it becomes
-2147483648. -/
theorem nav_page_down_overflow :
    nav_tall.focused = true ∧ 0 < nav_tall.last_visible_rows ∧
    1 ≤ nav_tall.last_sessions.length ∧
    0 ≤ nav_tall.selected_index ∧
    nav_tall.selected_index ≤ (nav_tall.last_sessions.length : Int) - 1 ∧
    (handle_nav_key nav_tall "page_down".toList).2 = true ∧
    (handle_nav_key nav_tall "page_down".toList).1.selected_index = -2147483647 ∧
    (handle_nav_key nav_full_height "page_down".toList).1.selected_index = -2147483648 := by
  decide

/-! ## Column layout -/

/-- C9: for `inner_width ≥ 1` and `session_w = min 18 (max 10 (inner_width / 4))`,
if `inner_width - (session_w + 6 + 6 + 7 + 8 + 4) < 8` the final pid and time
widths are 0 and the row `build_row` produces (header or data) is made of the
session, type (if shown), status and command (if shown) fields only; and if
`inner_width - (session_w + 6 + 7 + 2) < 8` as well, the type width is 0 too
and the row is made of the session, status and command (if shown) fields only. -/
theorem layout_degradation (inner_width : Int) (_h : 1 ≤ inner_width) :
    (inner_width - (min 18 (max 10 (inner_width / 4)) + 6 + 6 + 7 + 8 + 4) < 8 →
      (column_widths inner_width).pid_w = 0 ∧ (column_widths inner_width).time_w = 0 ∧
      ∀ (ljust rjust : Str → Int → Str) (session type pid status time cmd : Str),
        build_row ljust rjust (column_widths inner_width) inner_width
            session type pid status time cmd
          = ljust
              (ljust session (column_widths inner_width).session_w ++ [' ']
                ++ (if (column_widths inner_width).type_w > 0
                    then ljust type (column_widths inner_width).type_w ++ [' '] else [])
                ++ ljust status (column_widths inner_width).status_w
                ++ (if (column_widths inner_width).cmd_w > 0
                    then ' ' :: ljust cmd (column_widths inner_width).cmd_w else []))
              inner_width) ∧
    (inner_width - (min 18 (max 10 (inner_width / 4)) + 6 + 7 + 2) < 8 →
      (column_widths inner_width).pid_w = 0 ∧ (column_widths inner_width).time_w = 0 ∧
      (column_widths inner_width).type_w = 0 ∧
      ∀ (ljust rjust : Str → Int → Str) (session type pid status time cmd : Str),
        build_row ljust rjust (column_widths inner_width) inner_width
            session type pid status time cmd
          = ljust
              (ljust session (column_widths inner_width).session_w ++ [' ']
                ++ ljust status (column_widths inner_width).status_w
                ++ (if (column_widths inner_width).cmd_w > 0
                    then ' ' :: ljust cmd (column_widths inner_width).cmd_w else []))
              inner_width) := by
  have hrow : ∀ (w : Columns), w.pid_w = 0 → w.time_w = 0 →
      ∀ (ljust rjust : Str → Int → Str) (session type pid status time cmd : Str),
        build_row ljust rjust w inner_width session type pid status time cmd
          = ljust
              (ljust session w.session_w ++ [' ']
                ++ (if w.type_w > 0 then ljust type w.type_w ++ [' '] else [])
                ++ ljust status w.status_w
                ++ (if w.cmd_w > 0 then ' ' :: ljust cmd w.cmd_w else []))
              inner_width := by
    intro w hp ht ljust rjust session type pid status time cmd
    unfold build_row
    rw [hp, ht]
    by_cases h1 : w.type_w > 0 <;> by_cases h2 : w.cmd_w > 0 <;> simp [h1, h2]
  have hpid : inner_width - (min 18 (max 10 (inner_width / 4)) + 6 + 6 + 7 + 8 + 4) < 8 →
      (column_widths inner_width).pid_w = 0 ∧ (column_widths inner_width).time_w = 0 := by
    intro hc
    have hc' : inner_width - (min 18 (max 10 (inner_width / 4)) + 6 + 6 + 7 + 8 + 4) < 8 := hc
    unfold column_widths
    simp only [hc', if_true]
    exact ⟨trivial, trivial⟩
  constructor
  · intro hc
    obtain ⟨hp, ht⟩ := hpid hc
    exact ⟨hp, ht, hrow _ hp ht⟩
  · intro hc
    have hc1 : inner_width - (min 18 (max 10 (inner_width / 4)) + 6 + 6 + 7 + 8 + 4) < 8 := by
      omega
    obtain ⟨hp, ht⟩ := hpid hc1
    have htype : (column_widths inner_width).type_w = 0 := by
      unfold column_widths
      simp only [hc1, if_true]
      rw [if_pos hc]
    refine ⟨hp, ht, htype, ?_⟩
    intro ljust rjust session type pid status time cmd
    rw [hrow _ hp ht, htype]
    simp

/-- Witness of `layout_degradation`: at `inner_width = 40` the pid and time
columns go, at `inner_width = 30` the type column goes as well. -/
theorem layout_degradation_witness :
    ((column_widths 40).pid_w = 0 ∧ (column_widths 40).time_w = 0) ∧
    ((column_widths 30).pid_w = 0 ∧ (column_widths 30).time_w = 0 ∧
      (column_widths 30).type_w = 0) :=
  ⟨⟨((layout_degradation 40 (by decide)).1 (by decide)).1,
    ((layout_degradation 40 (by decide)).1 (by decide)).2.1⟩,
   ⟨((layout_degradation 30 (by decide)).2 (by decide)).1,
    ((layout_degradation 30 (by decide)).2 (by decide)).2.1,
    ((layout_degradation 30 (by decide)).2 (by decide)).2.2.1⟩⟩

/-! ## Discovery -/

/-- The log loop appends to `sessions` the record of each line it keeps. -/
theorem declared_loop_fst (tmux_map : Str → Option TmuxInfo) (lines : List Str) :
    ∀ (sessions : List SessionInfo) (known_pids : List Int),
      (declared_loop tmux_map lines sessions known_pids).1
        = sessions ++ lines.filterMap (declared_record tmux_map) := by
  induction lines with
  | nil => intro sessions known_pids; simp [declared_loop]
  | cons line rest ih =>
    intro sessions known_pids
    unfold declared_loop
    cases hp : parse_line line with
    | none =>
      have hr : declared_record tmux_map line = none := by simp [declared_record, hp]
      simp only [List.filterMap_cons, hr]
      exact ih sessions known_pids
    | some fields =>
      obtain ⟨timestamp, session_id, command⟩ := fields
      cases ht : tmux_map session_id with
      | none =>
        have hr : declared_record tmux_map line
            = some { session_id := session_id,
                     agent_type := extract_agent_type session_id,
                     time_str := format_time timestamp,
                     command := command } := by
          simp [declared_record, hp, ht]
        simp only [List.filterMap_cons, hr, ht]
        rw [ih]
        simp
      | some it =>
        have hr : declared_record tmux_map line
            = some { session_id := session_id,
                     agent_type := extract_agent_type session_id,
                     time_str := format_time timestamp,
                     command := command,
                     running := true, pid := it.pid,
                     waiting := is_waiting_for_input it.last_output } := by
          simp [declared_record, hp, ht]
        simp only [List.filterMap_cons, hr, ht]
        rw [ih]
        simp

/-- The declared records of a pass are the records of the kept log lines. -/
theorem declared_sessions_eq (w : World) (content : Str) :
    declared_sessions w content = (getlines content).filterMap (declared_record w.tmux_map) := by
  unfold declared_sessions
  rw [declared_loop_fst]
  rfl

/-- A discovery pass returns the truncated declared-then-orphan list. -/
theorem collect_pass (cached : List SessionInfo) (no_update : Bool) (w : World) (content : Str)
    (hpass : (no_update && !cached.isEmpty) = false) (hlog : w.log = some content) :
    collect cached no_update w
      = truncate_sessions (declared_sessions w content ++ orphan_sessions w content) := by
  unfold collect
  rw [hpass, hlog]
  rfl

/-- The truncation keeps the last `min 25 n` records. -/
theorem truncate_sessions_eq (sessions : List SessionInfo) :
    truncate_sessions sessions
      = sessions.drop (sessions.length - min 25 sessions.length) := by
  unfold truncate_sessions
  split_ifs with h
  · congr 1
    omega
  · have : sessions.length - min 25 sessions.length = 0 := by omega
    rw [this, List.drop_zero]

/-- C2: on a discovery pass (no cached answer is returned and the log is
readable), with `D` the declared records in file order and `O` the orphan
records, `collect` returns the last `min 25 (|D| + |O|)` records of `D ++ O` in
their order; with 30 declared records and no orphan it returns declared
records 6 to 30. -/
theorem collect_caps_at_25 (cached : List SessionInfo) (no_update : Bool) (w : World)
    (content : Str) (hpass : (no_update && !cached.isEmpty) = false)
    (hlog : w.log = some content) :
    collect cached no_update w
      = (declared_sessions w content ++ orphan_sessions w content).drop
          ((declared_sessions w content ++ orphan_sessions w content).length
            - min 25 ((declared_sessions w content).length + (orphan_sessions w content).length)) ∧
    (collect cached no_update w).length
      = min 25 ((declared_sessions w content).length + (orphan_sessions w content).length) ∧
    ((declared_sessions w content).length = 30 → orphan_sessions w content = [] →
      collect cached no_update w = (declared_sessions w content).drop 5) := by
  have e := collect_pass cached no_update w content hpass hlog
  rw [truncate_sessions_eq] at e
  refine ⟨?_, ?_, ?_⟩
  · rw [e, List.length_append]
  · rw [e, List.length_drop, List.length_append]
    omega
  · intro h30 hO
    rw [e, hO, List.append_nil, h30]
    rfl

/-- Witness of `collect_caps_at_25`: with the 30-session log and no orphan,
`collect` returns declared sessions 6 to 30, the first of them `agent-claude-6`. -/
theorem collect_caps_at_25_witness :
    collect [] true world_30 = (declared_sessions world_30 log_30).drop 5 ∧
    ((declared_sessions world_30 log_30).drop 5).head?.map SessionInfo.session_id
      = some "agent-claude-6".toList :=
  ⟨(collect_caps_at_25 [] true world_30 log_30 rfl rfl).2.2 (by decide) (by decide),
   by decide⟩

/-- The decimal digits written before an accumulator stay in front of it. -/
theorem toDigitsCore_acc (fuel : Nat) :
    ∀ (n : Nat) (ds : List Char),
      Nat.toDigitsCore 10 fuel n ds = Nat.toDigitsCore 10 fuel n [] ++ ds := by
  induction fuel with
  | zero => intro n ds; simp [Nat.toDigitsCore]
  | succ f ih =>
    intro n ds
    simp only [Nat.toDigitsCore]
    split_ifs
    · simp
    · rw [ih (n / 10) (Nat.digitChar (n % 10) :: ds), ih (n / 10) [Nat.digitChar (n % 10)]]
      simp

/-- The value of a digit string extended by one digit. -/
theorem digits_value_snoc (cs : Str) (c : Char) :
    digits_value (cs ++ [c]) = 10 * digits_value cs + (c.toNat - 48) := by
  simp [digits_value, List.foldl_append]

/-- Reading back the decimal digits of `n` gives `n`. -/
theorem digits_value_toDigitsCore (fuel : Nat) :
    ∀ n : Nat, n < fuel → digits_value (Nat.toDigitsCore 10 fuel n []) = n := by
  induction fuel with
  | zero => intro n h; omega
  | succ f ih =>
    intro n h
    have hd : ∀ k : Nat, k < 10 → (Nat.digitChar k).toNat - 48 = k := by decide
    simp only [Nat.toDigitsCore]
    split_ifs with h0
    · have hn : n < 10 := by omega
      rw [Nat.mod_eq_of_lt hn]
      simp [digits_value, hd n hn]
    · rw [toDigitsCore_acc, digits_value_snoc, ih (n / 10) (by omega),
        hd (n % 10) (Nat.mod_lt _ (by decide))]
      omega

/-- Two pids with the same `proc-` session id are equal. -/
theorem proc_session_id_injective (a b : Nat) (h : proc_session_id a = proc_session_id b) :
    a = b := by
  unfold proc_session_id at h
  have h' := List.append_cancel_left h
  have ha := digits_value_toDigitsCore (a + 1) a (by omega)
  have hb := digits_value_toDigitsCore (b + 1) b (by omega)
  unfold Nat.toDigits at h'
  rw [h'] at ha
  omega

/-- The record `scan_processes` makes of an entry carries the `proc-` id of its
pid, is running and is not waiting. -/
theorem scan_entry_some (known_pids : List Int) (entry : ProcEntry) (r : SessionInfo)
    (h : scan_entry known_pids entry = some r) :
    r.session_id = proc_session_id entry.pid ∧ r.running = true ∧ r.waiting = false := by
  unfold scan_entry at h
  dsimp only at h
  repeat' split at h
  all_goals first
    | cases h; done
    | (simp only [Option.some.injEq] at h; subst h; exact ⟨rfl, rfl, rfl⟩)

/-- The id of a declared record is the id parsed from its line. -/
theorem declared_record_id (tmux_map : Str → Option TmuxInfo) (line : Str) :
    (declared_record tmux_map line).map SessionInfo.session_id
      = (parse_line line).map (fun fields => fields.2.1) := by
  unfold declared_record
  cases parse_line line with
  | none => rfl
  | some fields =>
    obtain ⟨timestamp, session_id, command⟩ := fields
    dsimp only
    cases tmux_map session_id <;> rfl

/-- The ids of the declared records are the ids the log declares. -/
theorem declared_sessions_ids (w : World) (content : Str) :
    (declared_sessions w content).map SessionInfo.session_id = declared_ids content := by
  rw [declared_sessions_eq]
  unfold declared_ids
  rw [List.map_filterMap, List.map_filterMap]
  congr 1
  funext line
  exact declared_record_id w.tmux_map line

/-- The ids of the orphan records are `proc-` ids of process-table entries, in
table order. -/
theorem scan_processes_ids (known_pids : List Int) (procs : List ProcEntry) :
    ((scan_processes known_pids procs).map SessionInfo.session_id).Sublist
      (procs.map (fun p => proc_session_id p.pid)) := by
  unfold scan_processes
  induction procs with
  | nil => exact List.Sublist.slnil
  | cons p ps ih =>
    cases hp : scan_entry known_pids p with
    | none =>
      simp only [List.filterMap_cons, hp, List.map_cons]
      exact ih.cons _
    | some r =>
      simp only [List.filterMap_cons, hp, List.map_cons]
      rw [(scan_entry_some known_pids p r hp).1]
      exact ih.cons₂ _

/-- C3 (amended): on a discovery pass, if the session ids declared in the log are
pairwise distinct, the pids of the process table are pairwise distinct, and no
declared id is the `proc-<pid>` id of a process-table entry, then the session
ids of the records `collect` returns are pairwise distinct. -/
theorem collect_ids_distinct (cached : List SessionInfo) (no_update : Bool) (w : World)
    (content : Str) (hpass : (no_update && !cached.isEmpty) = false)
    (hlog : w.log = some content)
    (hdeclared : (declared_ids content).Nodup)
    (hpids : (w.procs.map ProcEntry.pid).Nodup)
    (hdisjoint : ∀ p ∈ w.procs, proc_session_id p.pid ∉ declared_ids content) :
    ((collect cached no_update w).map SessionInfo.session_id).Nodup := by
  rw [collect_pass cached no_update w content hpass hlog, truncate_sessions_eq]
  have hsub := scan_processes_ids (claimed_pids w content) w.procs
  have hprocs : (w.procs.map (fun p => proc_session_id p.pid)).Nodup := by
    have : w.procs.map (fun p => proc_session_id p.pid)
        = (w.procs.map ProcEntry.pid).map proc_session_id := by
      rw [List.map_map]; rfl
    rw [this]
    exact hpids.map (fun a b h => proc_session_id_injective a b h)
  have hall : ((declared_sessions w content ++ orphan_sessions w content).map
      SessionInfo.session_id).Nodup := by
    rw [List.map_append, declared_sessions_ids]
    refine List.Nodup.append hdeclared (hprocs.sublist hsub) ?_
    intro id hd ho
    obtain ⟨p, hp, e⟩ := List.mem_map.mp (hsub.subset ho)
    exact hdisjoint p hp (e ▸ hd)
  exact hall.sublist ((List.drop_sublist _ _).map _)

/-- Witness of `collect_ids_distinct`: the two-session world, whose process
table also holds an undeclared agent process. -/
theorem collect_ids_distinct_witness :
    ((collect [] false world_two).map SessionInfo.session_id).Nodup :=
  collect_ids_distinct [] false world_two log_two rfl rfl (by decide) (by decide) (by decide)

/-- C3 (as stated) fails: a log that declares `agent-claude-1` on two lines gives
two records with that id; and a log that declares the id `proc-80` next to an
undeclared process 80 gives a declared and an orphan record with that id. -/
theorem collect_repeats_declared_id :
    (collect [] false world_twice).map SessionInfo.session_id
      = ["agent-claude-1".toList, "agent-claude-1".toList] ∧
    ¬ ((collect [] false world_twice).map SessionInfo.session_id).Nodup ∧
    (collect [] false world_proc).map SessionInfo.session_id
      = ["proc-80".toList, "proc-80".toList] ∧
    ¬ ((collect [] false world_proc).map SessionInfo.session_id).Nodup := by
  decide

/-- Every record of a declared line respects `waiting → running`, and is stopped
with pid 0 when its id is not a live multiplexer session. -/
theorem declared_record_flags (tmux_map : Str → Option TmuxInfo) (line : Str) (r : SessionInfo)
    (h : declared_record tmux_map line = some r) :
    (r.waiting = true → r.running = true) ∧
    (tmux_map r.session_id = none → r.running = false ∧ r.waiting = false ∧ r.pid = 0) := by
  unfold declared_record at h
  cases hp : parse_line line with
  | none => rw [hp] at h; cases h
  | some fields =>
    obtain ⟨timestamp, session_id, command⟩ := fields
    rw [hp] at h
    dsimp only at h
    cases ht : tmux_map session_id with
    | none =>
      rw [ht] at h
      simp only [Option.some.injEq] at h
      subst h
      exact ⟨fun hw => (by cases hw), fun _ => ⟨rfl, rfl, rfl⟩⟩
    | some it =>
      rw [ht] at h
      simp only [Option.some.injEq] at h
      subst h
      exact ⟨fun _ => rfl, fun hn => (by rw [ht] at hn; cases hn)⟩

/-- C4: every record of the list `collect` returns, after any series of calls
from program start, has `waiting = true` only if `running = true`; a declared
record whose id is absent from the live multiplexer map has `running = false`,
`waiting = false` and `pid = 0`; every orphan record has `running = true` and
`waiting = false`. -/
theorem collect_waiting_implies_running :
    (∀ (calls : List (Bool × World)) (r : SessionInfo), r ∈ collect_calls calls →
      r.waiting = true → r.running = true) ∧
    (∀ (w : World) (content : Str) (r : SessionInfo), r ∈ declared_sessions w content →
      w.tmux_map r.session_id = none → r.running = false ∧ r.waiting = false ∧ r.pid = 0) ∧
    (∀ (known_pids : List Int) (procs : List ProcEntry) (r : SessionInfo),
      r ∈ scan_processes known_pids procs → r.running = true ∧ r.waiting = false) := by
  have hdecl : ∀ (w : World) (content : Str) (r : SessionInfo),
      r ∈ declared_sessions w content →
      (r.waiting = true → r.running = true) ∧
      (w.tmux_map r.session_id = none → r.running = false ∧ r.waiting = false ∧ r.pid = 0) := by
    intro w content r hr
    rw [declared_sessions_eq] at hr
    obtain ⟨line, _, hl⟩ := List.mem_filterMap.mp hr
    exact declared_record_flags w.tmux_map line r hl
  have horph : ∀ (known_pids : List Int) (procs : List ProcEntry) (r : SessionInfo),
      r ∈ scan_processes known_pids procs → r.running = true ∧ r.waiting = false := by
    intro known_pids procs r hr
    obtain ⟨p, _, hp⟩ := List.mem_filterMap.mp hr
    exact (scan_entry_some known_pids p r hp).2
  refine ⟨?_, fun w content r hr => (hdecl w content r hr).2, horph⟩
  intro calls
  induction calls with
  | nil => intro r hr; cases hr
  | cons call earlier ih =>
    intro r hr hw
    have e : collect_calls (call :: earlier) = collect (collect_calls earlier) call.1 call.2 := rfl
    rw [e] at hr
    unfold collect at hr
    split_ifs at hr
    · exact ih r hr hw
    · cases hlog : call.2.log with
      | none => rw [hlog] at hr; cases hr
      | some content =>
        rw [hlog] at hr
        have hr' : r ∈ truncate_sessions
            (declared_sessions call.2 content ++ orphan_sessions call.2 content) := hr
        rw [truncate_sessions_eq] at hr'
        rcases List.mem_append.mp (List.mem_of_mem_drop hr') with hd | ho
        · exact (hdecl call.2 content r hd).1 hw
        · exact (horph _ _ r ho).1

/-- Witness of `collect_waiting_implies_running`, end to end: after a pass and a
cached call on the two-session world, the record of `agent-claude-1` (no live
session, no process) is stopped, not waiting, with pid 0 and the time label
`10:00:00`; the live `agent-codex-2` is waiting and running; the orphan
`proc-80` is running and not waiting. -/
theorem collect_waiting_implies_running_witness :
    (collect_calls [(true, world_two), (false, world_two)]).map
        (fun r => (r.session_id, r.time_str, r.pid, r.running, r.waiting))
      = [ ("agent-claude-1".toList, "10:00:00".toList, 0, false, false),
          ("agent-codex-2".toList, "10:00:05".toList, 77, true, true),
          ("proc-80".toList, "live".toList, 80, true, false) ] ∧
    (∀ r ∈ collect_calls [(true, world_two), (false, world_two)],
      r.waiting = true → r.running = true) ∧
    (∀ r ∈ (declared_sessions world_two log_two).take 1,
      r.running = false ∧ r.waiting = false ∧ r.pid = 0) ∧
    (∀ r ∈ scan_processes [77] world_two.procs, r.running = true ∧ r.waiting = false) :=
  ⟨by decide,
   fun r hr => collect_waiting_implies_running.1 _ r hr,
   fun r hr => collect_waiting_implies_running.2.1 world_two log_two r
     (List.mem_of_mem_take hr)
     (by
       have : ∀ q ∈ (declared_sessions world_two log_two).take 1,
           world_two.tmux_map q.session_id = none := by decide
       exact this r hr),
   fun r hr => collect_waiting_implies_running.2.2 _ _ r hr⟩

/-! ## Shell quoting of multiplexer commands -/

/-- The escaping loop appends, for each byte, the byte itself or the five-byte
escape of a single quote. -/
theorem escape_loop_eq (value : Str) :
    ∀ out : Str, escape_loop value out
      = out ++ value.flatMap (fun c => if c = squote then quote_escape else [c]) := by
  induction value with
  | nil => intro out; simp [escape_loop]
  | cons c rest ih =>
    intro out
    unfold escape_loop
    by_cases h : c = squote
    · rw [if_pos h, ih]
      simp [List.flatMap_cons, h]
    · rw [if_neg h, ih]
      simp [List.flatMap_cons, h]

/-- Between single quotes, the shell reads the escaped form of `v` as `v`. -/
theorem sh_read_escaped (v : Str) :
    ∀ (acc rest : Str),
      sh_read .single (some acc)
          (v.flatMap (fun c => if c = squote then quote_escape else [c]) ++ rest)
        = sh_read .single (some (acc ++ v)) rest := by
  induction v with
  | nil => intro acc rest; simp
  | cons c cs ih =>
    intro acc rest
    by_cases h : c = squote
    · subst h
      simp only [List.flatMap_cons, if_true, List.append_assoc]
      have step : ∀ tail : Str,
          sh_read .single (some acc) (squote :: dquote :: squote :: dquote :: squote :: tail)
            = sh_read .single (some (acc ++ [squote])) tail := by
        intro tail
        simp [sh_read, squote, dquote, backslash, is_blank, word_add]
      have e2 : (acc ++ squote :: cs : Str) = (acc ++ [squote]) ++ cs := by simp
      show sh_read .single (some acc) (squote :: dquote :: squote :: dquote :: squote ::
          (cs.flatMap (fun c => if c = squote then quote_escape else [c]) ++ rest)) = _
      rw [step, ih, e2]
    · have hc : sh_read .single (some acc) (c :: (cs.flatMap
            (fun c => if c = squote then quote_escape else [c]) ++ rest))
          = sh_read .single (some (acc ++ [c])) (cs.flatMap
            (fun c => if c = squote then quote_escape else [c]) ++ rest) := by
        simp [sh_read, h, word_add]
      simp only [List.flatMap_cons, if_neg h, List.cons_append, List.nil_append]
      rw [hc, ih]
      simp

/-- C18: for every string `v` without a NUL byte, a POSIX shell reads
`shell_escape_single v` as exactly one word, equal to `v`; the empty string
maps to `''`, and a non-empty `v` maps to `v` between single quotes with each
single quote of `v` replaced by the five bytes `'"'"'`. -/
theorem shell_escape_single_correct :
    (∀ v : Str, Char.ofNat 0 ∉ v → sh_words (shell_escape_single v) = some [v]) ∧
    shell_escape_single [] = [squote, squote] ∧
    (∀ v : Str, v ≠ [] →
      shell_escape_single v
        = [squote] ++ v.flatMap (fun c => if c = squote then quote_escape else [c])
            ++ [squote]) := by
  have hform : ∀ v : Str, v ≠ [] →
      shell_escape_single v
        = [squote] ++ v.flatMap (fun c => if c = squote then quote_escape else [c])
            ++ [squote] := by
    intro v hv
    have he : v.isEmpty = false := by
      cases v with
      | nil => exact absurd rfl hv
      | cons _ _ => rfl
    unfold shell_escape_single
    rw [he]
    simp only [Bool.false_eq_true, if_false]
    rw [escape_loop_eq]
  refine ⟨?_, rfl, hform⟩
  intro v _
  by_cases hv : v = []
  · subst hv
    decide
  · rw [hform v hv]
    unfold sh_words
    have e1 : sh_read .bare none
        ([squote] ++ v.flatMap (fun c => if c = squote then quote_escape else [c]) ++ [squote])
        = sh_read .single (some [])
            (v.flatMap (fun c => if c = squote then quote_escape else [c]) ++ [squote]) := by
      simp [sh_read, squote, is_blank, word_add]
    rw [e1, sh_read_escaped]
    simp [sh_read, word_end]

/-- Witness of `shell_escape_single_correct`: the command `echo it's` is read back
as one word and is written as `'echo it'"'"'s'`. -/
theorem shell_escape_single_correct_witness :
    sh_words (shell_escape_single "echo it's".toList) = some ["echo it's".toList] ∧
    shell_escape_single "echo it's".toList
      = [squote] ++ "echo it".toList ++ quote_escape ++ "s".toList ++ [squote] :=
  ⟨shell_escape_single_correct.1 "echo it's".toList (by decide),
   (shell_escape_single_correct.2.2 "echo it's".toList (by decide)).trans (by decide)⟩

/-- Between single quotes, the shell reads a text without single quote up to
the closing quote as it stands. -/
theorem sh_read_single_plain (s : Str) (hs : squote ∉ s) :
    ∀ (acc rest : Str),
      sh_read .single (some acc) (s ++ squote :: rest) = sh_read .bare (some (acc ++ s)) rest := by
  induction s with
  | nil => intro acc rest; simp [sh_read]
  | cons c cs ih =>
    intro acc rest
    have hc : c ≠ squote := fun e => hs (by simp [e])
    have hcs : squote ∉ cs := fun e => hs (List.mem_cons_of_mem _ e)
    have e : sh_read .single (some acc) (c :: (cs ++ squote :: rest))
        = sh_read .single (some (acc ++ [c])) (cs ++ squote :: rest) := by
      simp [sh_read, hc, word_add]
    rw [List.cons_append, e, ih hcs]
    simp

/-- A session id without single quote is read back as one word of the four
commands built from it. -/
theorem commands_of_plain_id (s : Str) (hs : squote ∉ s) :
    sh_words (has_session_cmd s)
      = some ["tmux".toList, "has-session".toList, "-t".toList, s, "2>/dev/null".toList] ∧
    sh_words (attach_cmd s) = some ["tmux".toList, "attach".toList, "-t".toList, s] ∧
    sh_words (kill_session_cmd s)
      = some ["tmux".toList, "kill-session".toList, "-t".toList, s, "2>/dev/null".toList] := by
  refine ⟨?_, ?_, ?_⟩
  · have e : sh_words (has_session_cmd s)
        = word_end (some "tmux".toList) (word_end (some "has-session".toList)
            (word_end (some "-t".toList)
              (sh_read .single (some []) (s ++ squote :: " 2>/dev/null".toList)))) := by
      simp [sh_words, has_session_cmd, sh_read, is_blank, squote, dquote, backslash, word_add]
    rw [e, sh_read_single_plain s hs]
    simp [sh_read, is_blank, squote, dquote, backslash, word_add, word_end]
  · have e : sh_words (attach_cmd s)
        = word_end (some "tmux".toList) (word_end (some "attach".toList)
            (word_end (some "-t".toList)
              (sh_read .single (some []) (s ++ squote :: [])))) := by
      simp [sh_words, attach_cmd, sh_read, is_blank, squote, dquote, backslash, word_add]
    rw [e, sh_read_single_plain s hs]
    simp [sh_read, word_end]
  · have e : sh_words (kill_session_cmd s)
        = word_end (some "tmux".toList) (word_end (some "kill-session".toList)
            (word_end (some "-t".toList)
              (sh_read .single (some []) (s ++ squote :: " 2>/dev/null".toList)))) := by
      simp [sh_words, kill_session_cmd, sh_read, is_blank, squote, dquote, backslash, word_add]
    rw [e, sh_read_single_plain s hs]
    simp [sh_read, is_blank, squote, dquote, backslash, word_add, word_end]

/-- C11 fails on the code: the session id `agent-a'b` is put between single
quotes as it stands, so the has-session, attach, kill-session and new-session
commands built from it leave a quote open and read as no command at all; and
the id `agent-a' 'b` makes the attach command read as five words, none of them
the id, where the id `agent-claude-1` gives four. -/
theorem session_id_quote_not_escaped :
    sh_words (has_session_cmd "agent-a'b".toList) = none ∧
    sh_words (attach_cmd "agent-a'b".toList) = none ∧
    sh_words (kill_session_cmd "agent-a'b".toList) = none ∧
    sh_words (new_session_cmd "agent-a'b".toList "claude".toList) = none ∧
    sh_words (attach_cmd "agent-a' 'b".toList)
      = some ["tmux".toList, "attach".toList, "-t".toList, "agent-a".toList, "b".toList] ∧
    sh_words (attach_cmd "agent-claude-1".toList)
      = some ["tmux".toList, "attach".toList, "-t".toList, "agent-claude-1".toList] := by
  decide

/-! ## Session actions -/

/-- With an empty list nothing is selected. -/
theorem selected_session_empty (st : PanelState) (h : st.last_sessions = []) :
    selected_session st = (st, none) := by
  unfold selected_session
  simp [h]

/-- Selecting again from the clamped state selects the same record. -/
theorem selected_session_again (st : PanelState) :
    selected_session (selected_session st).1 = selected_session st := by
  unfold selected_session
  by_cases he : st.last_sessions.isEmpty = true
  · simp [he]
  · simp only [he, Bool.false_eq_true, if_false]
    have hne : st.last_sessions ≠ [] := by
      intro e; rw [e] at he; exact he rfl
    have hpos : 0 < st.last_sessions.length := List.length_pos.mpr hne
    split_ifs <;> first | rfl | (exfalso; simp only [] at *; omega)

/-- C12 (amended): with an empty last rendered list `resume_selected`,
`activate_selected` and `kill_selected` return false and issue no command; and
when the id of the selected record does not start with `agent-`, none of them
issues a command whatever the external commands answer, `resume_selected` and
`kill_selected` return false, and `activate_selected` returns false if the
record is not running. -/
theorem session_actions_preconditions (system : System) (st : PanelState)
    (issued : List Str) :
    (st.last_sessions = [] →
      (resume_selected system st issued).2 = (issued, false) ∧
      (activate_selected system st issued).2 = (issued, false) ∧
      (kill_selected system st issued).2 = (issued, false)) ∧
    (∀ entry : SessionInfo, (selected_session st).2 = some entry →
      ¬ agent_tag <+: entry.session_id →
      (resume_selected system st issued).2 = (issued, false) ∧
      (kill_selected system st issued).2 = (issued, false) ∧
      (activate_selected system st issued).2.1 = issued ∧
      (entry.running = false → (activate_selected system st issued).2.2 = false)) := by
  constructor
  · intro h
    have hs := selected_session_empty st h
    refine ⟨?_, ?_, ?_⟩
    · unfold resume_selected; rw [hs]
    · unfold activate_selected; rw [hs]
    · unfold kill_selected; rw [hs]
  · intro entry hsel htag
    have hp : agent_tag.isPrefixOf entry.session_id = false := by
      rw [Bool.eq_false_iff]
      intro hp
      exact htag (List.isPrefixOf_iff_prefix.mp hp)
    have hs : selected_session st = ((selected_session st).1, some entry) := by
      rw [← hsel]
    have hs2 : selected_session (selected_session st).1 = ((selected_session st).1, some entry) := by
      rw [selected_session_again]; exact hs
    have hres : ∀ st0 : PanelState, selected_session st0 = ((selected_session st).1, some entry) →
        (resume_selected system st0 issued).2 = (issued, false) := by
      intro st0 h0
      unfold resume_selected
      rw [h0]
      simp [hp]
    have hact : (activate_selected system st issued).2 = (issued, entry.running) := by
      unfold activate_selected
      rw [hs]
      by_cases hr : entry.running = true
      · simp [hr, attach_session, hp]
      · simp only [hr, Bool.false_eq_true, if_false]
        rw [hres _ hs2]
    refine ⟨hres st hs, ?_, ?_, ?_⟩
    · unfold kill_selected
      rw [hs]
      by_cases hr : entry.running = true <;> simp [hr, hp]
    · rw [hact]
    · intro hr
      rw [hact, hr]

/-- Witness of `session_actions_preconditions`: an empty panel, and a panel whose
selected record `claude-old` is stopped and lacks the `agent-` tag. -/
theorem session_actions_preconditions_witness :
    ((resume_selected system_ok {} []).2 = ([], false) ∧
      (activate_selected system_ok {} []).2 = ([], false) ∧
      (kill_selected system_ok {} []).2 = ([], false)) ∧
    ((resume_selected system_ok panel_untagged []).2 = ([], false) ∧
      (kill_selected system_ok panel_untagged []).2 = ([], false) ∧
      (activate_selected system_ok panel_untagged []).2.1 = [] ∧
      (activate_selected system_ok panel_untagged []).2.2 = false) :=
  ⟨(session_actions_preconditions system_ok {} []).1 rfl,
   ((session_actions_preconditions system_ok panel_untagged []).2
     { session_id := "claude-old".toList, agent_type := "unknown".toList,
       time_str := "10:00:00".toList, command := "claude".toList }
     (by decide) (by decide)).1,
   ((session_actions_preconditions system_ok panel_untagged []).2
     { session_id := "claude-old".toList, agent_type := "unknown".toList,
       time_str := "10:00:00".toList, command := "claude".toList }
     (by decide) (by decide)).2.1,
   ((session_actions_preconditions system_ok panel_untagged []).2
     { session_id := "claude-old".toList, agent_type := "unknown".toList,
       time_str := "10:00:00".toList, command := "claude".toList }
     (by decide) (by decide)).2.2.1,
   ((session_actions_preconditions system_ok panel_untagged []).2
     { session_id := "claude-old".toList, agent_type := "unknown".toList,
       time_str := "10:00:00".toList, command := "claude".toList }
     (by decide) (by decide)).2.2.2 rfl⟩

/-- C12 (as stated) fails: the selected record `proc-80` has an id that does not
start with `agent-` and is running; `activate_selected` issues no command but
returns true. -/
theorem activate_selected_running_untagged :
    (selected_session panel_orphan).2.map SessionInfo.session_id = some "proc-80".toList ∧
    agent_tag.isPrefixOf "proc-80".toList = false ∧
    (activate_selected system_ok panel_orphan []).2 = ([], true) := by
  decide

/-! ## Rendering: selection and scroll -/

/-- The selection `draw` settles on for a list of `size` records: the old one
clamped first to `≥ 0`, then to `≤ size - 1`. -/
theorem draw_select_selected (st : PanelState) (sessions : List SessionInfo) (max_entries : Int) :
    (draw_select st sessions max_entries).selected_index
      = (if (if st.selected_index < 0 then 0 else st.selected_index) ≥ (sessions.length : Int)
          then (sessions.length : Int) - 1
          else (if st.selected_index < 0 then 0 else st.selected_index)) := by
  simp only [draw_select, List.length_reverse]

/-- The scroll offset `draw` settles on, from the old one and the clamped
selection. -/
theorem draw_select_scroll (st : PanelState) (sessions : List SessionInfo) (max_entries : Int) :
    (draw_select st sessions max_entries).scroll_offset
      = (if (draw_select st sessions max_entries).selected_index
            ≥ (if (draw_select st sessions max_entries).selected_index < st.scroll_offset
                then (draw_select st sessions max_entries).selected_index
                else st.scroll_offset) + max_entries
          then max 0 ((draw_select st sessions max_entries).selected_index - max_entries + 1)
          else (if (draw_select st sessions max_entries).selected_index < st.scroll_offset
                then (draw_select st sessions max_entries).selected_index
                else st.scroll_offset)) := by
  simp only [draw_select, List.length_reverse]

/-- With an empty list, a prior `scroll_offset ≥ 0` and a viewport that has an
inner width and at least one data row, `draw` always reads `sorted[-1]`. -/
theorem draw_empty_no_result (ljust rjust : Str → Int → Str) (st : PanelState)
    (mouse : Mappings) (force_redraw : Bool)
    (hscroll : 0 ≤ st.scroll_offset) (hw : 1 ≤ st.width - 2) (hh : 1 ≤ st.height - 3) :
    (draw_select st [] (st.height - 3)).selected_index = -1 ∧
    (draw_select st [] (st.height - 3)).scroll_offset = -1 ∧
    draw ljust rjust st mouse [] force_redraw = none := by
  have hsel : (draw_select st [] (st.height - 3)).selected_index = -1 := by
    rw [draw_select_selected]
    simp only [List.length_nil, Nat.cast_zero]
    split_ifs <;> omega
  have hscr : (draw_select st [] (st.height - 3)).scroll_offset = -1 := by
    rw [draw_select_scroll, hsel]
    split_ifs <;> omega
  refine ⟨hsel, hscr, ?_⟩
  have e1 : max 0 (st.width - 2) = st.width - 2 := by omega
  have e2 : max 0 (max 0 (st.height - 2) - 1) = st.height - 3 := by omega
  have e3 : ¬ (max 0 (st.width - 2) = 0 ∨ max 0 (st.height - 2) = 0) := by omega
  have e4 : min ((([] : List SessionInfo).reverse.length : Nat) : Int) (-1 + (st.height - 3)) = 0 := by
    simp only [List.reverse_nil, List.length_nil, Nat.cast_zero]
    omega
  unfold draw
  simp only []
  rw [if_neg e3, e2, e1, hscr, e4]
  have e5 : ((0 : Int) - -1).toNat = 1 := by decide
  rw [e5]
  simp [draw_rows, at_index]

/-- C14 fails on the code: from the initial state, in a viewport of 40 by 10
(inner width 38, seven data rows), `draw` with an empty list sets
`selected_index` and `scroll_offset` to -1, so that its row loop runs from
index -1 to `end_index = 0`: one iteration, which reads `sorted[-1]` of an
empty list, where the claim has no iteration.  The read is outside the list
and `draw` has no defined result. -/
theorem draw_empty_list_runs_row_loop :
    (draw_select { width := 40, height := 10 } [] 7).selected_index = -1 ∧
    (draw_select { width := 40, height := 10 } [] 7).scroll_offset = -1 ∧
    min (([] : List SessionInfo).reverse.length : Int)
        ((draw_select { width := 40, height := 10 } [] 7).scroll_offset + 7) = 0 ∧
    read_indices 7 0 (0 - (-1 : Int)).toNat (-1) 0 = [-1] ∧
    at_index [] (-1) = none ∧
    draw ljust_spec rjust_spec { width := 40, height := 10 } [] [] false = none :=
  ⟨by decide, by decide, by decide, by decide, by decide,
   Option.isNone_iff_eq_none.mp (by decide)⟩

/-- C19 fails on the code: the first `draw` from the initial state, with an empty
list in a viewport of 40 by 10, leaves `scroll_offset = -1 < 0` and reads the
reversed list, of size 0, at index -1; a `draw` of the same empty list after
key presses and a focus toggle does the same. -/
theorem draw_from_initial_state_out_of_bounds :
    (draw_select { width := 40, height := 10 } [] 7).scroll_offset < 0 ∧
    (∃ i ∈ read_indices 7
        (min (([] : List SessionInfo).reverse.length : Int)
          ((draw_select { width := 40, height := 10 } [] 7).scroll_offset + 7))
        (min (([] : List SessionInfo).reverse.length : Int)
            ((draw_select { width := 40, height := 10 } [] 7).scroll_offset + 7)
          - (draw_select { width := 40, height := 10 } [] 7).scroll_offset).toNat
        (draw_select { width := 40, height := 10 } [] 7).scroll_offset 0,
      ¬ (0 ≤ i ∧ i < (([] : List SessionInfo).reverse.length : Int))) ∧
    draw ljust_spec rjust_spec { width := 40, height := 10 } [] [] true = none ∧
    draw ljust_spec rjust_spec
      (nav_keys (toggle_focus { width := 40, height := 10 }) ["down".toList, "end".toList])
      [] [] false = none :=
  ⟨by decide, by decide, Option.isNone_iff_eq_none.mp (by decide),
   Option.isNone_iff_eq_none.mp (by decide)⟩

/-! ## Column layout: the width of a row -/

/-- The row of `build_row` is its body justified to `inner_width`. -/
theorem build_row_eq (ljust rjust : Str → Int → Str) (w : Columns) (inner_width : Int)
    (session type pid status time cmd : Str) :
    build_row ljust rjust w inner_width session type pid status time cmd
      = ljust (row_body ljust rjust w session type pid status time cmd) inner_width := rfl

/-- With a justification that returns exactly the width asked for, the body of
the row has `row_width` columns. -/
theorem row_body_length (ljust rjust : Str → Int → Str) (w : Columns)
    (hl : ∀ (s : Str) (n : Int), 0 ≤ n → ((ljust s n).length : Int) = n)
    (hr : ∀ (s : Str) (n : Int), 0 ≤ n → ((rjust s n).length : Int) = n)
    (hs : 0 ≤ w.session_w) (hst : 0 ≤ w.status_w)
    (session type pid status time cmd : Str) :
    ((row_body ljust rjust w session type pid status time cmd).length : Int) = row_width w := by
  unfold row_body row_width
  simp only []
  split_ifs <;>
    simp only [List.length_append, List.length_cons, List.length_nil, List.nil_append,
      Nat.cast_add, Nat.cast_one, Nat.cast_zero] <;>
    (try rw [hl session _ hs]) <;> (try rw [hl status _ hst]) <;>
    (try rw [hl type _ (by omega)]) <;> (try rw [hr pid _ (by omega)]) <;>
    (try rw [hl time _ (by omega)]) <;> (try rw [hl cmd _ (by omega)]) <;> omega

/-- Whenever the final command width is positive the row is one column wider
than `inner_width`, in each of the three layouts. -/
theorem row_width_overshoot (inner_width : Int) (h : (column_widths inner_width).cmd_w > 0) :
    row_width (column_widths inner_width) = inner_width + 1 := by
  unfold column_widths row_width at *
  simp only [] at *
  split_ifs at h ⊢ <;> simp only [] at h ⊢ <;> omega

/-- C20 fails on the code: at `inner_width = 60` (full layout, command width 14)
the fields and separators of a row take 61 columns, at 40 (no pid and time) 41
and at 30 (no type either) 31, so the final justification to `inner_width`
cuts the last column of the command field each time: the command
`claude --resume` gets 14 columns and shows 13 bytes. -/
theorem row_exceeds_inner_width :
    (column_widths 60).cmd_w = 14 ∧ row_width (column_widths 60) = 61 ∧
    (row_body ljust_spec rjust_spec (column_widths 60) "Session:".toList "Type:".toList
      "Pid:".toList "Status:".toList "Time:".toList "Command:".toList).length = 61 ∧
    (build_row ljust_spec rjust_spec (column_widths 60) 60 "agent-claude-1".toList
        "claude".toList "-".toList "Stopped".toList "10:00:00".toList
        "claude --resume".toList)
      = "agent-claude-1  claude      - Stopped 10:00:00 claude --resu".toList ∧
    row_width (column_widths 40) = 41 ∧ row_width (column_widths 30) = 31 := by
  decide

/-! ## Effect of a click -/

/-- The search loop of `register_click` finds the first record with the id. -/
theorem first_index_of_found (s : Str) (l : List SessionInfo) :
    ∀ (k i : Nat), (l[i]?).map SessionInfo.session_id = some s →
      (∀ j : Nat, j < i → (l[j]?).map SessionInfo.session_id ≠ some s) →
      first_index_of s l k = some (k + i) := by
  induction l with
  | nil => intro k i h _; simp at h
  | cons e es ih =>
    intro k i h hfirst
    cases i with
    | zero =>
      have he : e.session_id = s := by simpa using h
      simp [first_index_of, he]
    | succ i =>
      have he : e.session_id ≠ s := by
        have := hfirst 0 (Nat.succ_pos i)
        simpa using this
      have hrec := ih (k + 1) i (by simpa using h)
        (fun j hj => by simpa using hfirst (j + 1) (Nat.succ_lt_succ hj))
      simp only [first_index_of, he, if_false, hrec]
      congr 1
      omega

/-- The search loop of `register_click` finds nothing when no record has the id. -/
theorem first_index_of_absent (s : Str) (l : List SessionInfo)
    (h : ∀ r ∈ l, r.session_id ≠ s) : ∀ k : Nat, first_index_of s l k = none := by
  induction l with
  | nil => intro k; rfl
  | cons e es ih =>
    intro k
    have he : e.session_id ≠ s := h e (List.mem_cons_self _ _)
    simp only [first_index_of, he, if_false]
    exact ih (fun r hr => h r (List.mem_cons_of_mem _ hr)) (k + 1)

/-- C16: after `register_click s` the panel is focused, the scroll offset and the
last rendered list are unchanged; if some record of that list has the id `s`,
`selected_index` is the index of the first such record; if none has,
`selected_index` is unchanged. -/
theorem register_click_effect (st : PanelState) (now : Nat) (s : Str) :
    (register_click st now s).1.focused = true ∧
    (register_click st now s).1.scroll_offset = st.scroll_offset ∧
    (register_click st now s).1.last_sessions = st.last_sessions ∧
    (∀ i : Nat, (st.last_sessions[i]?).map SessionInfo.session_id = some s →
      (∀ j : Nat, j < i → (st.last_sessions[j]?).map SessionInfo.session_id ≠ some s) →
      (register_click st now s).1.selected_index = (i : Int)) ∧
    ((∀ r ∈ st.last_sessions, r.session_id ≠ s) →
      (register_click st now s).1.selected_index = st.selected_index) := by
  refine ⟨?_, ?_, ?_, ?_, ?_⟩
  · unfold register_click; dsimp only; split <;> rfl
  · unfold register_click; dsimp only; split <;> rfl
  · unfold register_click; dsimp only; split <;> rfl
  · intro i hi hfirst
    have hf := first_index_of_found s st.last_sessions 0 i hi hfirst
    unfold register_click
    dsimp only
    rw [hf]
    simp
  · intro h
    have hf := first_index_of_absent s st.last_sessions h 0
    unfold register_click
    dsimp only
    rw [hf]

/-- Witness of `register_click_effect` on the three-record sample panel: a click
on `agent-codex-2` selects index 1, a click on an id that is not listed keeps
the selection. -/
theorem register_click_effect_witness :
    (register_click nav_sample 1000 "agent-codex-2".toList).1.selected_index = 1 ∧
    (register_click nav_sample 1000 "agent-none".toList).1.selected_index
      = nav_sample.selected_index :=
  ⟨(register_click_effect nav_sample 1000 "agent-codex-2".toList).2.2.2.1 1
      (by decide) (by decide),
   (register_click_effect nav_sample 1000 "agent-none".toList).2.2.2.2 (by decide)⟩

/-! ## Discovery: what the truncation drops -/

/-- A suffix of `D ++ O` that misses a member of `O` lies inside `O`. -/
theorem drop_append_within (D O : List SessionInfo) (k : Nat) (o : SessionInfo)
    (ho : o ∈ O) (hmiss : o ∉ (D ++ O).drop k) : ∀ r ∈ (D ++ O).drop k, r ∈ O := by
  rw [List.drop_append_eq_append_drop] at hmiss ⊢
  by_cases hk : k ≤ D.length
  · exfalso
    apply hmiss
    have : k - D.length = 0 := by omega
    rw [this, List.drop_zero]
    exact List.mem_append_right _ ho
  · intro r hr
    rw [List.drop_eq_nil_of_le (by omega), List.nil_append] at hr
    exact List.mem_of_mem_drop hr

/-- On a discovery pass, a returned list that misses an orphan record holds
orphan records only, all of them running. -/
theorem collect_missing_orphan (cached : List SessionInfo) (no_update : Bool) (w : World)
    (content : Str) (hpass : (no_update && !cached.isEmpty) = false)
    (hlog : w.log = some content)
    (hmiss : ∃ o ∈ orphan_sessions w content, o ∉ collect cached no_update w) :
    ∀ r ∈ collect cached no_update w, r ∈ orphan_sessions w content ∧ r.running = true := by
  rw [collect_pass cached no_update w content hpass hlog, truncate_sessions_eq] at hmiss ⊢
  obtain ⟨o, ho, hmiss⟩ := hmiss
  intro r hr
  have hin := drop_append_within _ _ _ o ho hmiss r hr
  refine ⟨hin, ?_⟩
  obtain ⟨p, _, hp⟩ := List.mem_filterMap.mp hin
  exact (scan_entry_some _ p r hp).2.1

/-- C17 (as stated) fails: on no discovery pass does the returned list omit an
orphan record while it contains a declared record with `running = false`. -/
theorem collect_never_drops_orphan_before_stale :
    ¬ ∃ (cached : List SessionInfo) (no_update : Bool) (w : World) (content : Str),
      (no_update && !cached.isEmpty) = false ∧ w.log = some content ∧
      (∃ o ∈ orphan_sessions w content, o ∉ collect cached no_update w) ∧
      (∃ d ∈ declared_sessions w content,
        d.running = false ∧ d ∈ collect cached no_update w) := by
  rintro ⟨cached, no_update, w, content, hpass, hlog, hmiss, d, _, hstale, hd⟩
  have := (collect_missing_orphan cached no_update w content hpass hlog hmiss d hd).2
  rw [hstale] at this
  cases this

/-- C17 (amended): the front truncation in `collect` drops declared records
before orphan ones.  On a discovery pass, a returned list that omits some
orphan record contains orphan records only, none with `running = false`; and
there are a log and a process table (30 stale declared sessions, one orphan)
for which the returned list omits a declared record with `running = false`
while it contains every orphan record. -/
theorem collect_drops_declared_first :
    (∀ (cached : List SessionInfo) (no_update : Bool) (w : World) (content : Str),
      (no_update && !cached.isEmpty) = false → w.log = some content →
      (∃ o ∈ orphan_sessions w content, o ∉ collect cached no_update w) →
      ∀ r ∈ collect cached no_update w, r ∈ orphan_sessions w content ∧ r.running = true) ∧
    (∃ (w : World) (content : Str), w.log = some content ∧
      (∃ d ∈ declared_sessions w content, d.running = false ∧ d ∉ collect [] false w) ∧
      (orphan_sessions w content ≠ [] ∧
        ∀ o ∈ orphan_sessions w content, o ∈ collect [] false w)) :=
  ⟨collect_missing_orphan, world_30_orphan, log_30, rfl, by decide, by decide⟩

/-- Witness of `collect_drops_declared_first`: with an empty log and 26 orphan
processes the returned list omits an orphan and holds running orphan records
only. -/
theorem collect_drops_declared_first_witness :
    ∀ r ∈ collect [] false world_26_orphans,
      r ∈ orphan_sessions world_26_orphans [] ∧ r.running = true :=
  collect_drops_declared_first.1 [] false world_26_orphans [] rfl rfl (by decide)

/-! ## The status classifier: the Proceed and Continue checks -/

/-- A literal word matches itself. -/
theorem matches_word (w : Str) : ∀ rest : Str, Regex.Matches (Regex.word w) w rest := by
  induction w with
  | nil => intro rest; exact .eps rest
  | cons c cs ih =>
    intro rest
    cases cs with
    | nil => exact .chr c rest
    | cons d ds => exact .seq (.chr c) _ [c] (d :: ds) rest (.chr c _) (ih rest)

/-- A run of whitespace matches `\s*`. -/
theorem matches_spaces (ws : Str) (h : ∀ c ∈ ws, is_space c = true) :
    ∀ rest : Str, Regex.Matches (.star .space) ws rest := by
  induction ws with
  | nil => intro rest; exact .star_nil _ rest
  | cons c cs ih =>
    intro rest
    exact .star_cons .space [c] cs rest (.space c _ (h c (List.mem_cons_self _ _)))
      (ih (fun d hd => h d (List.mem_cons_of_mem _ hd)) rest)

/-- A first letter out of `set`, the rest of the word, whitespace and a question
mark match the pattern made of them, wherever they stand in the text. -/
theorem search_word_question (set : List Char) (c : Char) (word ws pre post : Str)
    (hc : c ∈ set) (hws : ∀ d ∈ ws, is_space d = true) :
    regex_search (pre ++ (c :: word ++ ws ++ ['?']) ++ post)
      (.seq (.cls set) (.seq (Regex.word word) (.seq (.star .space) (.chr '?')))) = true := by
  rw [regex_search_iff]
  refine ⟨pre, c :: word ++ ws ++ ['?'], post, by simp, ?_⟩
  have h3 : Regex.Matches (.seq (.star .space) (.chr '?')) (ws ++ ['?']) post :=
    .seq _ _ ws ['?'] post (matches_spaces ws hws _) (.chr '?' post)
  have h2 : Regex.Matches (.seq (Regex.word word) (.seq (.star .space) (.chr '?')))
      (word ++ (ws ++ ['?'])) post :=
    .seq _ _ word (ws ++ ['?']) post (matches_word word _) h3
  have h1 := Regex.Matches.seq (.cls set) _ [c] (word ++ (ws ++ ['?'])) post
    (.cls c set _ hc) h2
  have e : c :: word ++ ws ++ ['?'] = [c] ++ (word ++ (ws ++ ['?'])) := by simp
  rw [e]
  exact h1

/-- C15 (amended): the Proceed and Continue checks accept either case of the
first letter only.  For every text that contains `Proceed` or `proceed`
followed by zero or more whitespace bytes and `?`, and likewise for `Continue`
or `continue`, `is_waiting_for_input` returns true, wherever in the text the
match stands. -/
theorem is_waiting_for_input_proceed_continue (ws pre post : Str)
    (hws : ∀ d ∈ ws, is_space d = true) :
    is_waiting_for_input (pre ++ ("Proceed".toList ++ ws ++ ['?']) ++ post) = true ∧
    is_waiting_for_input (pre ++ ("proceed".toList ++ ws ++ ['?']) ++ post) = true ∧
    is_waiting_for_input (pre ++ ("Continue".toList ++ ws ++ ['?']) ++ post) = true ∧
    is_waiting_for_input (pre ++ ("continue".toList ++ ws ++ ['?']) ++ post) = true := by
  have hp : Regex.seq (.cls ['P', 'p']) (.seq (Regex.word "roceed".toList)
      (.seq (.star .space) (.chr '?'))) ∈ patterns := by
    simp [patterns]
  have hcn : Regex.seq (.cls ['C', 'c']) (.seq (Regex.word "ontinue".toList)
      (.seq (.star .space) (.chr '?'))) ∈ patterns := by
    simp [patterns]
  unfold is_waiting_for_input
  simp only [List.any_eq_true]
  exact ⟨⟨_, hp, search_word_question ['P', 'p'] 'P' "roceed".toList ws pre post
            (by decide) hws⟩,
         ⟨_, hp, search_word_question ['P', 'p'] 'p' "roceed".toList ws pre post
            (by decide) hws⟩,
         ⟨_, hcn, search_word_question ['C', 'c'] 'C' "ontinue".toList ws pre post
            (by decide) hws⟩,
         ⟨_, hcn, search_word_question ['C', 'c'] 'c' "ontinue".toList ws pre post
            (by decide) hws⟩⟩

/-- Witness of `is_waiting_for_input_proceed_continue`: `Proceed`, two blanks and
`?` in the middle of a line. -/
theorem is_waiting_for_input_proceed_continue_witness :
    is_waiting_for_input
      ("Patch ready. ".toList ++ ("Proceed".toList ++ "  ".toList ++ ['?']) ++ " (press a key)".toList)
      = true :=
  (is_waiting_for_input_proceed_continue "  ".toList "Patch ready. ".toList
    " (press a key)".toList (by decide)).1

/-- C15 (as stated) fails: `PROCEED? no` and `please CONTINUE ? later` contain the
word in upper case followed by whitespace and `?`, and `is_waiting_for_input`
returns false for both. -/
theorem is_waiting_for_input_upper_case :
    is_waiting_for_input "PROCEED? no".toList = false ∧
    is_waiting_for_input "please CONTINUE ? later".toList = false ∧
    is_waiting_for_input "pRoceed? no".toList = false := by
  decide

end Agent
